import Mathlib

/-!
# BLS12-381 extension tower: Fp12 and Fp12Alt

A shallow embedding of `ecc/bls12381/ff/fp12.go` and `ecc/bls12381/ff/fp12alt.go`.

The lower levels of the tower (Fp, Fp2, Fp4, Fp6) are not part of these two
files.  Their operations are taken as parameters: a record of the Fp6 (resp.
Fp4) methods that the Fp12 (resp. Fp12Alt) code calls.  The arrays
`[2]Fp6`, `[3]Fp4`, `[3]Fp2`, `[2]Fp2` become structures with one field per
index.  A Go method `z.Op(x, y)` that overwrites its receiver becomes a
function returning the new value of `z`; each statement of the body is one
`let`, in the order of the source.

The arithmetic methods are embedded a second time on a store, with the
destination passed by address, to follow the writes when the destination is
also an input.  A `[]byte` is a slice with a length and a capacity, and a slice
expression out of range is a panic.  The constant `frob12W1` is read from its
limbs in the source.
-/

namespace ff

/-- A Go `byte`. -/
abbrev Byte := Fin 256

/-! ## Data model -/

/-- `type Fp6 [3]Fp2` over an Fp2 carrier `K`. -/
@[ext]
structure Fp6 (K : Type) where
  c0 : K
  c1 : K
  c2 : K
deriving DecidableEq

/-- `type Fp4 [2]Fp2` over an Fp2 carrier `K`. -/
@[ext]
structure Fp4 (K : Type) where
  b0 : K
  b1 : K
deriving DecidableEq

/-- `type Fp12 [2]Fp6` over an Fp6 carrier `F`. -/
@[ext]
structure Fp12 (F : Type) where
  d0 : F
  d1 : F
deriving DecidableEq

/-- `type Fp12Alt [3]Fp4` over an Fp4 carrier `G`. -/
@[ext]
structure Fp12Alt (G : Type) where
  e0 : G
  e1 : G
  e2 : G
deriving DecidableEq

/-- `type LineValue [3]Fp2` over an Fp2 carrier `K`. -/
@[ext]
structure LineValue (K : Type) where
  l0 : K
  l1 : K
  l2 : K
deriving DecidableEq

/-- The Fp6 methods called by the arithmetic of `fp12.go`, as a parameter.
`One` is the value left by `Fp6.SetOne`, `Zero` is the Go zero value `Fp6{}`. -/
structure Fp6Ops (F : Type) where
  Add : F → F → F
  Sub : F → F → F
  Mul : F → F → F
  Neg : F → F
  Sqr : F → F
  MulBeta : F → F
  One : F
  Zero : F

/-- The Fp4 methods called by the arithmetic of `fp12alt.go`, as a parameter.
`One` is the value left by `Fp4.SetOne`, `Zero` is the Go zero value `Fp4{}`. -/
structure Fp4Ops (G : Type) where
  Add : G → G → G
  Sub : G → G → G
  Mul : G → G → G
  Sqr : G → G
  MulT : G → G
  One : G
  Zero : G

/-- The Fp2 methods called by `fp12alt.go`, as a parameter.
`One` is the value left by `Fp2.SetOne`, `Zero` is the Go zero value `Fp2{}`. -/
structure Fp2Ops (K : Type) where
  Add : K → K → K
  One : K
  Zero : K

/-- Fp2 read as a commutative ring. -/
def Fp2Ops.ofRing {K : Type} [CommRing K] : Fp2Ops K where
  Add a b := a + b
  One := 1
  Zero := 0

/-- Fp6 read as a commutative ring with a distinguished element `v`:
`Sqr a = a * a`, `MulBeta a = v * a`. -/
def Fp6Ops.ofRing {F : Type} [CommRing F] (v : F) : Fp6Ops F where
  Add a b := a + b
  Sub a b := a - b
  Mul a b := a * b
  Neg a := -a
  Sqr a := a * a
  MulBeta a := v * a
  One := 1
  Zero := 0

/-- Fp4 read as a commutative ring with a distinguished element `t`:
`Sqr a = a * a`, `MulT a = t * a`. -/
def Fp4Ops.ofRing {G : Type} [CommRing G] (t : G) : Fp4Ops G where
  Add a b := a + b
  Sub a b := a - b
  Mul a b := a * b
  Sqr a := a * a
  MulT a := t * a
  One := 1
  Zero := 0

/-! ## fp12.go -/

/-- `func (z *Fp12) SetOne() { z[0].SetOne(); z[1] = Fp6{} }` -/
def Fp12.SetOne {F : Type} (ops : Fp6Ops F) : Fp12 F :=
  { d0 := ops.One, d1 := ops.Zero }

/-- The Go zero value `Fp12{}`. -/
def Fp12.zero {F : Type} (ops : Fp6Ops F) : Fp12 F :=
  { d0 := ops.Zero, d1 := ops.Zero }

/-- `func (z *Fp12) Cjg() { z[1].Neg() }` -/
def Fp12.Cjg {F : Type} (ops : Fp6Ops F) (z : Fp12 F) : Fp12 F :=
  { d0 := z.d0, d1 := ops.Neg z.d1 }

/-- `func (z *Fp12) Neg() { z[0].Neg(); z[1].Neg() }` -/
def Fp12.Neg {F : Type} (ops : Fp6Ops F) (z : Fp12 F) : Fp12 F :=
  { d0 := ops.Neg z.d0, d1 := ops.Neg z.d1 }

/-- `func (z *Fp12) Add(x, y *Fp12)` -/
def Fp12.Add {F : Type} (ops : Fp6Ops F) (x y : Fp12 F) : Fp12 F :=
  { d0 := ops.Add x.d0 y.d0, d1 := ops.Add x.d1 y.d1 }

/-- `func (z *Fp12) Sub(x, y *Fp12)` -/
def Fp12.Sub {F : Type} (ops : Fp6Ops F) (x y : Fp12 F) : Fp12 F :=
  { d0 := ops.Sub x.d0 y.d0, d1 := ops.Sub x.d1 y.d1 }

/-- `func (z *Fp12) MulBeta() { t := z[0]; z[0].Sub(&z[0], &z[1]); z[1].Add(&t, &z[1]) }` -/
def Fp12.MulBeta {F : Type} (ops : Fp6Ops F) (z : Fp12 F) : Fp12 F :=
  let t := z.d0
  let z0 := ops.Sub z.d0 z.d1
  let z1 := ops.Add t z.d1
  { d0 := z0, d1 := z1 }

/-- `func (z *Fp12) Mul(x, y *Fp12)`, fp12.go lines 25-36. -/
def Fp12.Mul {F : Type} (ops : Fp6Ops F) (x y : Fp12 F) : Fp12 F :=
  let x0y0 := ops.Mul x.d0 y.d0
  let x1y1 := ops.Mul x.d1 y.d1
  let sx := ops.Add x.d0 x.d1
  let sy := ops.Add y.d0 y.d1
  let k := ops.Mul sx sy
  let z1 := ops.Sub k x0y0
  let z1 := ops.Sub z1 x1y1
  let x1y1 := ops.MulBeta x1y1
  let z0 := ops.Add x0y0 x1y1
  { d0 := z0, d1 := z1 }

/-- `func (z *Fp12) Sqr(x *Fp12)`, fp12.go lines 38-46. -/
def Fp12.Sqr {F : Type} (ops : Fp6Ops F) (x : Fp12 F) : Fp12 F :=
  let x02 := ops.Sqr x.d0
  let x12 := ops.Sqr x.d1
  let x12 := ops.MulBeta x12
  let k := ops.Mul x.d0 x.d1
  let z0 := ops.Add x02 x12
  let z1 := ops.Add k k
  { d0 := z0, d1 := z1 }

/-- `func (z *Fp12) Inv(x *Fp12)`, fp12.go lines 48-58.  `inv6` is `Fp6.Inv`. -/
def Fp12.Inv {F : Type} (ops : Fp6Ops F) (inv6 : F → F) (x : Fp12 F) : Fp12 F :=
  let x02 := ops.Sqr x.d0
  let x12 := ops.Sqr x.d1
  let x12 := ops.MulBeta x12
  let den := ops.Sub x02 x12
  let den := inv6 den
  let z0 := ops.Mul x.d0 den
  let z1 := ops.Mul x.d1 den
  let z1 := ops.Neg z1
  { d0 := z0, d1 := z1 }

/-- The bit read at iteration `i` of `ExpVarTime`:
`bit := 0x1 & (n[i/8] >> uint(7-i%8))`.  The index `i/8` is in range for
every `i < 8*len(n)`, the only values the loop takes. -/
def ExpVarTime.bit (n : List Byte) (i : Nat) : Nat :=
  1 &&& ((n.getD (i / 8) 0).val >>> (7 - i % 8))

/-- One iteration of the loop body of `ExpVarTime` (fp12.go lines 66-70).
The calls `zz.Sqr(zz)` and `zz.Mul(zz, x)` pass the receiver as an argument;
`Sqr` and `Mul` read their arguments before they write the receiver. -/
def ExpVarTime.step {F : Type} (ops : Fp6Ops F) (x : Fp12 F) (n : List Byte)
    (zz : Fp12 F) (i : Nat) : Fp12 F :=
  let zz := Fp12.Sqr ops zz
  let bit := ExpVarTime.bit n i
  if bit ≠ 0 then Fp12.Mul ops zz x else zz

/-- `func (z *Fp12) ExpVarTime(x *Fp12, n []byte)`, fp12.go lines 61-73:
`zz` starts at one and the body runs for `i = 0, ..., 8*len(n) - 1`. -/
def Fp12.ExpVarTime {F : Type} (ops : Fp6Ops F) (x : Fp12 F) (n : List Byte) : Fp12 F :=
  let zz := Fp12.SetOne ops
  let N := 8 * n.length
  (List.range N).foldl (ExpVarTime.step ops x n) zz

/-- `func (z Fp12) Bytes() []byte { return append(z[0].Bytes(), z[1].Bytes()...) }`.
`bytes6` is `Fp6.Bytes`. -/
def Fp12.Bytes {F : Type} (bytes6 : F → List Byte) (z : Fp12 F) : List Byte :=
  bytes6 z.d0 ++ bytes6 z.d1

/-! ## fp12alt.go -/

/-- `func (z *Fp12Alt) FromFp12(x *Fp12)`, fp12alt.go lines 16-26. -/
def Fp12Alt.FromFp12 {K : Type} (x : Fp12 (Fp6 K)) : Fp12Alt (Fp4 K) :=
  { e0 := { b0 := x.d0.c0, b1 := x.d1.c1 }
    e1 := { b0 := x.d1.c0, b1 := x.d0.c2 }
    e2 := { b0 := x.d0.c1, b1 := x.d1.c2 } }

/-- `func (z *Fp12) FromFp12Alt(x *Fp12Alt)`, fp12alt.go lines 28-35. -/
def Fp12.FromFp12Alt {K : Type} (x : Fp12Alt (Fp4 K)) : Fp12 (Fp6 K) :=
  { d0 := { c0 := x.e0.b0, c1 := x.e2.b0, c2 := x.e1.b1 }
    d1 := { c0 := x.e1.b0, c1 := x.e0.b1, c2 := x.e2.b1 } }

/-- `func (z *Fp12Alt) Add(x *Fp12Alt, y *Fp12Alt)` -/
def Fp12Alt.Add {G : Type} (ops : Fp4Ops G) (x y : Fp12Alt G) : Fp12Alt G :=
  { e0 := ops.Add x.e0 y.e0, e1 := ops.Add x.e1 y.e1, e2 := ops.Add x.e2 y.e2 }

/-- `func (z *Fp12Alt) SetOne() { z[0].SetOne(); z[1] = Fp4{}; z[2] = Fp4{} }` -/
def Fp12Alt.SetOne {G : Type} (ops : Fp4Ops G) : Fp12Alt G :=
  { e0 := ops.One, e1 := ops.Zero, e2 := ops.Zero }

/-- `func (z *Fp12Alt) Mul(x *Fp12Alt, y *Fp12Alt)`, fp12alt.go lines 49-81. -/
def Fp12Alt.Mul {G : Type} (ops : Fp4Ops G) (x y : Fp12Alt G) : Fp12Alt G :=
  let v0 := ops.Mul x.e0 y.e0
  let v1 := ops.Mul x.e1 y.e1
  let v2 := ops.Mul x.e2 y.e2
  let tx := ops.Add x.e1 x.e2
  let ty := ops.Add y.e1 y.e2
  let p0 := ops.Mul tx ty
  let tx := ops.Add x.e0 x.e1
  let ty := ops.Add y.e0 y.e1
  let p1 := ops.Mul tx ty
  let tx := ops.Add x.e0 x.e2
  let ty := ops.Add y.e0 y.e2
  let p2 := ops.Mul tx ty
  let z0 := ops.Sub p0 v1
  let z0 := ops.Sub z0 v2
  let z0 := ops.MulT z0
  let z0 := ops.Add z0 v0
  let z1 := ops.Sub p1 v0
  let z1 := ops.Sub z1 v1
  let tx := ops.MulT v2
  let z1 := ops.Add z1 tx
  let z2 := ops.Sub p2 v0
  let z2 := ops.Add z2 v1
  let z2 := ops.Sub z2 v2
  { e0 := z0, e1 := z1, e2 := z2 }

/-- `func (z *Fp12Alt) Sqr(x *Fp12Alt)`, fp12alt.go lines 83-105. -/
def Fp12Alt.Sqr {G : Type} (ops : Fp4Ops G) (x : Fp12Alt G) : Fp12Alt G :=
  let s0 := ops.Sqr x.e0
  let s1 := ops.Mul x.e0 x.e1
  let s1 := ops.Add s1 s1
  let t := ops.Add x.e0 x.e2
  let t := ops.Sub t x.e1
  let s2 := ops.Sqr t
  let s3 := ops.Mul x.e1 x.e2
  let s3 := ops.Add s3 s3
  let s4 := ops.Sqr x.e2
  let z0 := ops.MulT s3
  let z0 := ops.Add z0 s0
  let z1 := ops.MulT s4
  let z1 := ops.Add z1 s1
  let z2 := ops.Add s1 s2
  let z2 := ops.Add z2 s3
  let z2 := ops.Sub z2 s0
  let z2 := ops.Sub z2 s4
  { e0 := z0, e1 := z1, e2 := z2 }

/-- `func (z *Fp12Alt) MulLine(x *Fp12Alt, y *LineValue)`, fp12alt.go lines 107-140.
`ops2` are the Fp2 methods, `mulSubfield` is `Fp4.MulSubfield`. -/
def Fp12Alt.MulLine {K : Type} (ops2 : Fp2Ops K) (ops : Fp4Ops (Fp4 K))
    (mulSubfield : Fp4 K → K → Fp4 K) (x : Fp12Alt (Fp4 K)) (y : LineValue K) :
    Fp12Alt (Fp4 K) :=
  let y0 : Fp4 K := { b0 := y.l0, b1 := y.l2 }
  let y2 : K := y.l1
  let v0 := ops.Mul x.e0 y0
  let v2 := mulSubfield x.e2 y2
  let tx := ops.Add x.e1 x.e2
  let p0 := mulSubfield tx y2
  let tx := ops.Add x.e0 x.e1
  let p1 := ops.Mul tx y0
  let tx := ops.Add x.e0 x.e2
  let ty := y0
  let ty : Fp4 K := { b0 := ops2.Add ty.b0 y2, b1 := ty.b1 }
  let p2 := ops.Mul tx ty
  let z0 := ops.Sub p0 v2
  let z0 := ops.MulT z0
  let z0 := ops.Add z0 v0
  let z1 := ops.Sub p1 v0
  let tx := ops.MulT v2
  let z1 := ops.Add z1 tx
  let z2 := ops.Sub p2 v0
  let z2 := ops.Sub z2 v2
  { e0 := z0, e1 := z1, e2 := z2 }

/-- `func (z *LineValue) SetOne() { z[0].SetOne(); z[1] = Fp2{}; z[2] = Fp2{} }` -/
def LineValue.SetOne {K : Type} (ops2 : Fp2Ops K) : LineValue K :=
  { l0 := ops2.One, l1 := ops2.Zero, l2 := ops2.Zero }

/-! ## The levels below, modelled from the specification -/

/-- Modelled from the spec: the Fp4 level, which the sources do not contain.
Fp4 is the quadratic extension Fp2[s]/(s^2 - (u+1)); a pair `(b0, b1)` means
`b0 + b1*s`, and `MulT` is multiplication by the non-residue `t = s`.  The
element `u+1` of Fp2 is the parameter `xi`. -/
def Fp4.model {K : Type} [CommRing K] (xi : K) : Fp4Ops (Fp4 K) where
  Add a b := { b0 := a.b0 + b.b0, b1 := a.b1 + b.b1 }
  Sub a b := { b0 := a.b0 - b.b0, b1 := a.b1 - b.b1 }
  Mul a b := { b0 := a.b0 * b.b0 + xi * (a.b1 * b.b1), b1 := a.b0 * b.b1 + a.b1 * b.b0 }
  Sqr a := { b0 := a.b0 * a.b0 + xi * (a.b1 * a.b1), b1 := a.b0 * a.b1 + a.b1 * a.b0 }
  MulT a := { b0 := xi * a.b1, b1 := a.b0 }
  One := { b0 := 1, b1 := 0 }
  Zero := { b0 := 0, b1 := 0 }

/-- Modelled from the spec: `Fp4.MulSubfield`, which the sources do not contain:
multiplication of an Fp4 element by an Fp2 element `c` embedded as `(c, 0)`. -/
def Fp4.MulSubfield {K : Type} [CommRing K] (xi : K) (a : Fp4 K) (c : K) : Fp4 K :=
  (Fp4.model xi).Mul a { b0 := c, b1 := 0 }

/-- Modelled from the spec: the Fp6 level, which the sources do not contain.
Fp6 is the cubic extension Fp2[v]/(v^3 - (u+1)); a triple `(c0, c1, c2)` means
`c0 + c1*v + c2*v^2`, and `MulBeta` maps `(c0, c1, c2)` to `(c2*(u+1), c0, c1)`.
The element `u+1` of Fp2 is the parameter `xi`. -/
def Fp6.model {K : Type} [CommRing K] (xi : K) : Fp6Ops (Fp6 K) where
  Add a b := { c0 := a.c0 + b.c0, c1 := a.c1 + b.c1, c2 := a.c2 + b.c2 }
  Sub a b := { c0 := a.c0 - b.c0, c1 := a.c1 - b.c1, c2 := a.c2 - b.c2 }
  Mul a b :=
    { c0 := a.c0 * b.c0 + xi * (a.c1 * b.c2 + a.c2 * b.c1)
      c1 := a.c0 * b.c1 + a.c1 * b.c0 + xi * (a.c2 * b.c2)
      c2 := a.c0 * b.c2 + a.c1 * b.c1 + a.c2 * b.c0 }
  Neg a := { c0 := -a.c0, c1 := -a.c1, c2 := -a.c2 }
  Sqr a :=
    { c0 := a.c0 * a.c0 + xi * (a.c1 * a.c2 + a.c2 * a.c1)
      c1 := a.c0 * a.c1 + a.c1 * a.c0 + xi * (a.c2 * a.c2)
      c2 := a.c0 * a.c2 + a.c1 * a.c1 + a.c2 * a.c0 }
  MulBeta a := { c0 := a.c2 * xi, c1 := a.c0, c2 := a.c1 }
  One := { c0 := 1, c1 := 0, c2 := 0 }
  Zero := { c0 := 0, c1 := 0, c2 := 0 }

/-- Modelled from the spec: the length in bytes of an Fp element, a constant the
sources do not contain: each Fp component occupies exactly 48 bytes. -/
def FpSize : Nat := 48

/-- Modelled from the spec: the length in bytes of an Fp2 element, a constant
the sources do not contain (96 bytes). -/
def Fp2Size : Nat := 2 * FpSize

/-- Modelled from the spec: the length in bytes of an Fp6 element, a constant
the sources do not contain: 3 times the Fp2 size, 288 bytes. -/
def Fp6Size : Nat := 3 * Fp2Size

/-- `const Fp12Size = 2 * Fp6Size`, fp12.go line 6. -/
def Fp12Size : Nat := 2 * Fp6Size

/-- Modelled from the spec: an Fp2 element, the ordered pair `(a0, a1)` meaning
`a0 + a1*u`; the type is not in the sources. -/
@[ext]
structure Fp2 (B : Type) where
  a0 : B
  a1 : B
deriving DecidableEq

/-- Modelled from the spec: `Fp.Bytes`, which the sources do not contain: the
48-byte big-endian encoding of the integer in `[0, p)` that the element stands
for, here given as a natural number. -/
def Fp.Bytes (a : Nat) : List Byte :=
  (List.range FpSize).map
    (fun i => (⟨(a / 256 ^ (FpSize - 1 - i)) % 256, Nat.mod_lt _ (by decide)⟩ : Byte))

/-- Modelled from the spec: `Fp2.Bytes`, which the sources do not contain:
96 bytes, the higher-degree component first, `Fp(a1) || Fp(a0)`. -/
def Fp2.Bytes (a : Fp2 Nat) : List Byte :=
  Fp.Bytes a.a1 ++ Fp.Bytes a.a0

/-- Modelled from the spec: `Fp6.Bytes`, which the sources do not contain:
288 bytes, ordered `c2 || c1 || c0`. -/
def Fp6.Bytes (c : Fp6 (Fp2 Nat)) : List Byte :=
  Fp2.Bytes c.c2 ++ Fp2.Bytes c.c1 ++ Fp2.Bytes c.c0

/-! ## The same methods with the destination passed by pointer

Each method writes its result through the pointer `z`, one component at a time,
while `x` and `y` point into the same store and may be the same object as `z`.
A store maps an address to the object held there; every read of `x[i]`,
`y[i]` or `z[i]` is made in the store as it stands at that statement.  The
temporaries (`x0y0`, `tx`, ...) are local variables of the method body. -/

/-- A store of objects of one type, addressed by pointers. -/
abbrev Store (T : Type) := Nat → T

/-- The write `z[0] = a` through an `*Fp12`. -/
def Fp12.set0 {F : Type} (h : Store (Fp12 F)) (z : Nat) (a : F) : Store (Fp12 F) :=
  Function.update h z { d0 := a, d1 := (h z).d1 }

/-- The write `z[1] = a` through an `*Fp12`. -/
def Fp12.set1 {F : Type} (h : Store (Fp12 F)) (z : Nat) (a : F) : Store (Fp12 F) :=
  Function.update h z { d0 := (h z).d0, d1 := a }

/-- The write `z[0] = a` through an `*Fp12Alt`. -/
def Fp12Alt.set0 {G : Type} (h : Store (Fp12Alt G)) (z : Nat) (a : G) : Store (Fp12Alt G) :=
  Function.update h z { e0 := a, e1 := (h z).e1, e2 := (h z).e2 }

/-- The write `z[1] = a` through an `*Fp12Alt`. -/
def Fp12Alt.set1 {G : Type} (h : Store (Fp12Alt G)) (z : Nat) (a : G) : Store (Fp12Alt G) :=
  Function.update h z { e0 := (h z).e0, e1 := a, e2 := (h z).e2 }

/-- The write `z[2] = a` through an `*Fp12Alt`. -/
def Fp12Alt.set2 {G : Type} (h : Store (Fp12Alt G)) (z : Nat) (a : G) : Store (Fp12Alt G) :=
  Function.update h z { e0 := (h z).e0, e1 := (h z).e1, e2 := a }

/-- `func (z *Fp12) Mul(x, y *Fp12)`, fp12.go lines 25-36, on a store. -/
def Fp12.MulPtr {F : Type} (ops : Fp6Ops F) (h : Store (Fp12 F)) (z x y : Nat) :
    Store (Fp12 F) :=
  let x0y0 := ops.Mul (h x).d0 (h y).d0
  let x1y1 := ops.Mul (h x).d1 (h y).d1
  let sx := ops.Add (h x).d0 (h x).d1
  let sy := ops.Add (h y).d0 (h y).d1
  let k := ops.Mul sx sy
  let h := Fp12.set1 h z (ops.Sub k x0y0)
  let h := Fp12.set1 h z (ops.Sub (h z).d1 x1y1)
  let x1y1 := ops.MulBeta x1y1
  let h := Fp12.set0 h z (ops.Add x0y0 x1y1)
  h

/-- `func (z *Fp12) Sqr(x *Fp12)`, fp12.go lines 38-46, on a store. -/
def Fp12.SqrPtr {F : Type} (ops : Fp6Ops F) (h : Store (Fp12 F)) (z x : Nat) :
    Store (Fp12 F) :=
  let x02 := ops.Sqr (h x).d0
  let x12 := ops.Sqr (h x).d1
  let x12 := ops.MulBeta x12
  let k := ops.Mul (h x).d0 (h x).d1
  let h := Fp12.set0 h z (ops.Add x02 x12)
  let h := Fp12.set1 h z (ops.Add k k)
  h

/-- `func (z *Fp12) Inv(x *Fp12)`, fp12.go lines 48-58, on a store.  The read of
`x[1]` comes after the write of `z[0]`. -/
def Fp12.InvPtr {F : Type} (ops : Fp6Ops F) (inv6 : F → F) (h : Store (Fp12 F))
    (z x : Nat) : Store (Fp12 F) :=
  let x02 := ops.Sqr (h x).d0
  let x12 := ops.Sqr (h x).d1
  let x12 := ops.MulBeta x12
  let den := ops.Sub x02 x12
  let den := inv6 den
  let h := Fp12.set0 h z (ops.Mul (h x).d0 den)
  let h := Fp12.set1 h z (ops.Mul (h x).d1 den)
  let h := Fp12.set1 h z (ops.Neg (h z).d1)
  h

/-- `func (z *Fp12Alt) Mul(x *Fp12Alt, y *Fp12Alt)`, fp12alt.go lines 49-81, on a store. -/
def Fp12Alt.MulPtr {G : Type} (ops : Fp4Ops G) (h : Store (Fp12Alt G)) (z x y : Nat) :
    Store (Fp12Alt G) :=
  let v0 := ops.Mul (h x).e0 (h y).e0
  let v1 := ops.Mul (h x).e1 (h y).e1
  let v2 := ops.Mul (h x).e2 (h y).e2
  let tx := ops.Add (h x).e1 (h x).e2
  let ty := ops.Add (h y).e1 (h y).e2
  let p0 := ops.Mul tx ty
  let tx := ops.Add (h x).e0 (h x).e1
  let ty := ops.Add (h y).e0 (h y).e1
  let p1 := ops.Mul tx ty
  let tx := ops.Add (h x).e0 (h x).e2
  let ty := ops.Add (h y).e0 (h y).e2
  let p2 := ops.Mul tx ty
  let h := Fp12Alt.set0 h z (ops.Sub p0 v1)
  let h := Fp12Alt.set0 h z (ops.Sub (h z).e0 v2)
  let h := Fp12Alt.set0 h z (ops.MulT (h z).e0)
  let h := Fp12Alt.set0 h z (ops.Add (h z).e0 v0)
  let h := Fp12Alt.set1 h z (ops.Sub p1 v0)
  let h := Fp12Alt.set1 h z (ops.Sub (h z).e1 v1)
  let tx := ops.MulT v2
  let h := Fp12Alt.set1 h z (ops.Add (h z).e1 tx)
  let h := Fp12Alt.set2 h z (ops.Sub p2 v0)
  let h := Fp12Alt.set2 h z (ops.Add (h z).e2 v1)
  let h := Fp12Alt.set2 h z (ops.Sub (h z).e2 v2)
  h

/-- `func (z *Fp12Alt) Sqr(x *Fp12Alt)`, fp12alt.go lines 83-105, on a store. -/
def Fp12Alt.SqrPtr {G : Type} (ops : Fp4Ops G) (h : Store (Fp12Alt G)) (z x : Nat) :
    Store (Fp12Alt G) :=
  let s0 := ops.Sqr (h x).e0
  let s1 := ops.Mul (h x).e0 (h x).e1
  let s1 := ops.Add s1 s1
  let t := ops.Add (h x).e0 (h x).e2
  let t := ops.Sub t (h x).e1
  let s2 := ops.Sqr t
  let s3 := ops.Mul (h x).e1 (h x).e2
  let s3 := ops.Add s3 s3
  let s4 := ops.Sqr (h x).e2
  let h := Fp12Alt.set0 h z (ops.MulT s3)
  let h := Fp12Alt.set0 h z (ops.Add (h z).e0 s0)
  let h := Fp12Alt.set1 h z (ops.MulT s4)
  let h := Fp12Alt.set1 h z (ops.Add (h z).e1 s1)
  let h := Fp12Alt.set2 h z (ops.Add s1 s2)
  let h := Fp12Alt.set2 h z (ops.Add (h z).e2 s3)
  let h := Fp12Alt.set2 h z (ops.Sub (h z).e2 s0)
  let h := Fp12Alt.set2 h z (ops.Sub (h z).e2 s4)
  h

/-- `func (z *Fp12Alt) MulLine(x *Fp12Alt, y *LineValue)`, fp12alt.go lines
107-140, on a store.  `y` points to a `LineValue`, an object of another type
than the destination `*Fp12Alt`, so it is never the destination; its three
components are copied into locals before anything is written. -/
def Fp12Alt.MulLinePtr {K : Type} (ops2 : Fp2Ops K) (ops : Fp4Ops (Fp4 K))
    (mulSubfield : Fp4 K → K → Fp4 K) (h : Store (Fp12Alt (Fp4 K))) (z x : Nat)
    (y : LineValue K) : Store (Fp12Alt (Fp4 K)) :=
  let y0 : Fp4 K := { b0 := y.l0, b1 := y.l2 }
  let y2 : K := y.l1
  let v0 := ops.Mul (h x).e0 y0
  let v2 := mulSubfield (h x).e2 y2
  let tx := ops.Add (h x).e1 (h x).e2
  let p0 := mulSubfield tx y2
  let tx := ops.Add (h x).e0 (h x).e1
  let p1 := ops.Mul tx y0
  let tx := ops.Add (h x).e0 (h x).e2
  let ty := y0
  let ty : Fp4 K := { b0 := ops2.Add ty.b0 y2, b1 := ty.b1 }
  let p2 := ops.Mul tx ty
  let h := Fp12Alt.set0 h z (ops.Sub p0 v2)
  let h := Fp12Alt.set0 h z (ops.MulT (h z).e0)
  let h := Fp12Alt.set0 h z (ops.Add (h z).e0 v0)
  let h := Fp12Alt.set1 h z (ops.Sub p1 v0)
  let tx := ops.MulT v2
  let h := Fp12Alt.set1 h z (ops.Add (h z).e1 tx)
  let h := Fp12Alt.set2 h z (ops.Sub p2 v0)
  let h := Fp12Alt.set2 h z (ops.Sub (h z).e2 v2)
  h

/-! ## Reference notions used to state the properties -/

/-- The non-negative integer that a byte string encodes in big-endian order. -/
def beValue (n : List Byte) : Nat :=
  n.foldl (fun acc b => 256 * acc + b.val) 0

/-- The power `x^k` by repeated `Fp12.Mul`, starting from one:
`x` is multiplied in `k` times. -/
def Fp12.powMul {F : Type} (ops : Fp6Ops F) (x : Fp12 F) : Nat → Fp12 F
  | 0 => Fp12.SetOne ops
  | k + 1 => Fp12.Mul ops (Fp12.powMul ops x k) x

/-- The generator `w` of Fp12Alt = Fp4[w]/(w^3 - t): the triple `(0, 1, 0)`. -/
def Fp12Alt.w {G : Type} (ops : Fp4Ops G) : Fp12Alt G :=
  { e0 := ops.Zero, e1 := ops.One, e2 := ops.Zero }

/-- An Fp2 element `c` seen in Fp12Alt: the triple `((c, 0), 0, 0)`. -/
def Fp12Alt.ofFp2 {K : Type} (ops2 : Fp2Ops K) (ops : Fp4Ops (Fp4 K)) (c : K) :
    Fp12Alt (Fp4 K) :=
  { e0 := { b0 := c, b1 := ops2.Zero }, e1 := ops.Zero, e2 := ops.Zero }

/-- The Fp12Alt element that a LineValue `l` represents, `l0 + l1*w^2 + l2*w^3`,
computed with the arithmetic of Fp12Alt. -/
def LineValue.toFp12Alt {K : Type} (ops2 : Fp2Ops K) (ops : Fp4Ops (Fp4 K))
    (l : LineValue K) : Fp12Alt (Fp4 K) :=
  let w := Fp12Alt.w ops
  let w2 := Fp12Alt.Mul ops w w
  let w3 := Fp12Alt.Mul ops w2 w
  Fp12Alt.Add ops
    (Fp12Alt.Add ops (Fp12Alt.ofFp2 ops2 ops l.l0)
      (Fp12Alt.Mul ops (Fp12Alt.ofFp2 ops2 ops l.l1) w2))
    (Fp12Alt.Mul ops (Fp12Alt.ofFp2 ops2 ops l.l2) w3)

/-! ## Byte slices and `SetBytes` -/

/-- A Go `[]byte`: the `len(b)` elements in view, followed by the elements of
the backing array that lie between `len(b)` and the capacity `cap(b)`. -/
structure Slice where
  vis : List Byte
  spare : List Byte
deriving DecidableEq

/-- `len(b)`. -/
def Slice.len (b : Slice) : Nat := b.vis.length

/-- `cap(b)`. -/
def Slice.cap (b : Slice) : Nat := b.vis.length + b.spare.length

/-- The slice expression `b[lo:hi]` on a slice operand: the indices are in range
when `lo <= hi <= cap(b)`, the upper bound being the capacity and not the
length; otherwise the expression panics, which is `none`. -/
def Slice.slice (b : Slice) (lo hi : Nat) : Option Slice :=
  if lo ≤ hi ∧ hi ≤ b.cap then
    some { vis := ((b.vis ++ b.spare).drop lo).take (hi - lo)
           spare := (b.vis ++ b.spare).drop hi }
  else none

/-- `func (z *Fp12) SetBytes(b []byte) error`, fp12.go lines 12-14:
`return errFirst(z[0].SetBytes(b[:Fp6Size]), z[1].SetBytes(b[Fp6Size:2*Fp6Size]))`.
The operands are evaluated from left to right.  `none` is a run-time panic, in
which case no error value is returned; otherwise the result is the error value
and the new value of `z`.  `errFirst` is a helper of the package that these
files call and do not contain; it is a parameter, and so is `setBytes6`
(`Fp6.SetBytes`, given the old value of its receiver and the bytes in view of
the slice it is passed). -/
def Fp12.SetBytes {E F : Type} (errFirst : Option E → Option E → Option E)
    (setBytes6 : F → List Byte → Option E × F) (z : Fp12 F) (b : Slice) :
    Option (Option E × Fp12 F) :=
  match b.slice 0 Fp6Size with
  | none => none
  | some b0 =>
    let r0 := setBytes6 z.d0 b0.vis
    match b.slice Fp6Size (2 * Fp6Size) with
    | none => none
    | some b1 =>
      let r1 := setBytes6 z.d1 b1.vis
      some (errFirst r0.1 r1.1, { d0 := r0.2, d1 := r1.2 })

/-- Modelled from the spec: the error kind of `SetBytes`, an `OutOfRange` signal. -/
inductive SetBytesError where
  | OutOfRange
deriving DecidableEq

/-- Modelled from the spec: the BLS12-381 base prime `p`, the order of Fp, which
the sources do not contain. -/
def fpPrime : Nat :=
  0x1a0111ea397fe69a4b1ba7b6434bacd764774b84f38512bf6730d2a0f6b0f6241eabfffeb153ffffb9feffffffffaaab

/-- Modelled from the spec: `Fp.SetBytes`, which the sources do not contain: a
48-byte big-endian integer in `[0, p)` is accepted, a value `>= p` gives
`OutOfRange` (the receiver is then left as it was). -/
def Fp.SetBytes (z : Nat) (b : List Byte) : Option SetBytesError × Nat :=
  if beValue b < fpPrime then (none, beValue b) else (some SetBytesError.OutOfRange, z)

/-- Modelled from the spec: `Fp2.SetBytes`, which the sources do not contain:
the layout is `Fp(a1) || Fp(a0)`, and an encoding is rejected componentwise:
there is no error when both components are accepted, and `OutOfRange` otherwise. -/
def Fp2.SetBytes (z : Fp2 Nat) (b : List Byte) : Option SetBytesError × Fp2 Nat :=
  let r1 := Fp.SetBytes z.a1 (b.take FpSize)
  let r0 := Fp.SetBytes z.a0 ((b.drop FpSize).take FpSize)
  (if r1.1 = none ∧ r0.1 = none then none else some SetBytesError.OutOfRange,
    { a0 := r0.2, a1 := r1.2 })

/-- Modelled from the spec: `Fp6.SetBytes`, which the sources do not contain:
the layout is `c2 || c1 || c0`, and an encoding is rejected componentwise:
there is no error when the three components are accepted, and `OutOfRange`
otherwise. -/
def Fp6.SetBytes (z : Fp6 (Fp2 Nat)) (b : List Byte) :
    Option SetBytesError × Fp6 (Fp2 Nat) :=
  let r2 := Fp2.SetBytes z.c2 (b.take Fp2Size)
  let r1 := Fp2.SetBytes z.c1 ((b.drop Fp2Size).take Fp2Size)
  let r0 := Fp2.SetBytes z.c0 ((b.drop (2 * Fp2Size)).take Fp2Size)
  (if r2.1 = none ∧ r1.1 = none ∧ r0.1 = none then none else some SetBytesError.OutOfRange,
    { c0 := r0.2, c1 := r1.2, c2 := r2.2 })

/-- The element 0 of Fp6 in the byte model. -/
def Fp6.natZero : Fp6 (Fp2 Nat) :=
  { c0 := { a0 := 0, a1 := 0 }, c1 := { a0 := 0, a1 := 0 }, c2 := { a0 := 0, a1 := 0 } }

/-- The element 1 of Fp6 in the byte model. -/
def Fp6.natOne : Fp6 (Fp2 Nat) :=
  { c0 := { a0 := 1, a1 := 0 }, c1 := { a0 := 0, a1 := 0 }, c2 := { a0 := 0, a1 := 0 } }

/-! ## Fp2 as a ring and the Frobenius of Fp12 -/

/-- Modelled from the spec: the zero of Fp2. -/
instance Fp2.instZero {B : Type} [CommRing B] : Zero (Fp2 B) := ⟨{ a0 := 0, a1 := 0 }⟩

/-- Modelled from the spec: the one of Fp2. -/
instance Fp2.instOne {B : Type} [CommRing B] : One (Fp2 B) := ⟨{ a0 := 1, a1 := 0 }⟩

/-- Modelled from the spec: addition of Fp2, componentwise. -/
instance Fp2.instAdd {B : Type} [CommRing B] : Add (Fp2 B) :=
  ⟨fun x y => { a0 := x.a0 + y.a0, a1 := x.a1 + y.a1 }⟩

/-- Modelled from the spec: negation of Fp2, componentwise. -/
instance Fp2.instNeg {B : Type} [CommRing B] : Neg (Fp2 B) :=
  ⟨fun x => { a0 := -x.a0, a1 := -x.a1 }⟩

/-- Modelled from the spec: multiplication of Fp2 = Fp[u]/(u^2+1), which the
sources do not contain, by the Karatsuba formula: the output is
`(x0*y0 - x1*y1, (x0+x1)*(y0+y1) - x0*y0 - x1*y1)`. -/
instance Fp2.instMul {B : Type} [CommRing B] : Mul (Fp2 B) :=
  ⟨fun x y => { a0 := x.a0 * y.a0 - x.a1 * y.a1
                a1 := (x.a0 + x.a1) * (y.a0 + y.a1) - x.a0 * y.a0 - x.a1 * y.a1 }⟩

/-- Modelled from the spec: Fp2 = Fp[u]/(u^2+1) is a commutative ring when Fp is. -/
instance Fp2.instCommRing {B : Type} [CommRing B] : CommRing (Fp2 B) :=
  CommRing.ofMinimalAxioms
    (fun a b c => Fp2.ext (add_assoc a.a0 b.a0 c.a0) (add_assoc a.a1 b.a1 c.a1))
    (fun a => Fp2.ext (zero_add a.a0) (zero_add a.a1))
    (fun a => Fp2.ext (neg_add_cancel a.a0) (neg_add_cancel a.a1))
    (fun a b c => Fp2.ext
      (show (a.a0 * b.a0 - a.a1 * b.a1) * c.a0 -
          ((a.a0 + a.a1) * (b.a0 + b.a1) - a.a0 * b.a0 - a.a1 * b.a1) * c.a1 =
        a.a0 * (b.a0 * c.a0 - b.a1 * c.a1) -
          a.a1 * ((b.a0 + b.a1) * (c.a0 + c.a1) - b.a0 * c.a0 - b.a1 * c.a1) by ring)
      (show ((a.a0 * b.a0 - a.a1 * b.a1) +
            ((a.a0 + a.a1) * (b.a0 + b.a1) - a.a0 * b.a0 - a.a1 * b.a1)) * (c.a0 + c.a1) -
          (a.a0 * b.a0 - a.a1 * b.a1) * c.a0 -
          ((a.a0 + a.a1) * (b.a0 + b.a1) - a.a0 * b.a0 - a.a1 * b.a1) * c.a1 =
        (a.a0 + a.a1) * ((b.a0 * c.a0 - b.a1 * c.a1) +
            ((b.a0 + b.a1) * (c.a0 + c.a1) - b.a0 * c.a0 - b.a1 * c.a1)) -
          a.a0 * (b.a0 * c.a0 - b.a1 * c.a1) -
          a.a1 * ((b.a0 + b.a1) * (c.a0 + c.a1) - b.a0 * c.a0 - b.a1 * c.a1) by ring))
    (fun a b => Fp2.ext
      (show a.a0 * b.a0 - a.a1 * b.a1 = b.a0 * a.a0 - b.a1 * a.a1 by ring)
      (show (a.a0 + a.a1) * (b.a0 + b.a1) - a.a0 * b.a0 - a.a1 * b.a1 =
        (b.a0 + b.a1) * (a.a0 + a.a1) - b.a0 * a.a0 - b.a1 * a.a1 by ring))
    (fun a => Fp2.ext
      (show 1 * a.a0 - 0 * a.a1 = a.a0 by ring)
      (show (1 + 0) * (a.a0 + a.a1) - 1 * a.a0 - 0 * a.a1 = a.a1 by ring))
    (fun a b c => Fp2.ext
      (show a.a0 * (b.a0 + c.a0) - a.a1 * (b.a1 + c.a1) =
        (a.a0 * b.a0 - a.a1 * b.a1) + (a.a0 * c.a0 - a.a1 * c.a1) by ring)
      (show (a.a0 + a.a1) * ((b.a0 + c.a0) + (b.a1 + c.a1)) - a.a0 * (b.a0 + c.a0) -
          a.a1 * (b.a1 + c.a1) =
        ((a.a0 + a.a1) * (b.a0 + b.a1) - a.a0 * b.a0 - a.a1 * b.a1) +
          ((a.a0 + a.a1) * (c.a0 + c.a1) - a.a0 * c.a0 - a.a1 * c.a1) by ring))

/-- Modelled from the spec: the element `u + 1` of Fp2, the non-residue that
defines Fp4 and Fp6. -/
def Fp2.xi {B : Type} [CommRing B] : Fp2 B := { a0 := 1, a1 := 1 }

/-- Modelled from the spec: the Montgomery constant `R = 2^384`; an element of
Fp is stored as its value multiplied by `R` modulo `p`. -/
def Fp.montR : Nat :=
  0x1000000000000000000000000000000000000000000000000000000000000000000000000000000000000000000000000

/-- The inverse of `R` modulo `p`. -/
def Fp.montRInv : Nat :=
  0x14fec701e8fb0ce9ed5e64273c4f538b1797ab1458a88de9343ea97914956dc87fe11274d898fafbf4d38259380b4820

/-- Modelled from the spec: the value of an Fp element stored in Montgomery form
as the integer `m`. -/
def Fp.fromMont (m : Nat) : Nat := m * Fp.montRInv % fpPrime

/-- The integer held by a sequence of 64-bit limbs, least significant first. -/
def Fp.limbsValue (l : List Nat) : Nat :=
  l.foldr (fun x acc => x + 2 ^ 64 * acc) 0

/-- The limbs of the first component of `frob12W1`, fp12.go lines 79-82. -/
def frob12W1.limbs0 : List Nat :=
  [0x07089552b319d465, 0xc6695f92b50a8313, 0x97e83cccd117228f,
   0xa35baecab2dc29ee, 0x1ce393ea5daace4d, 0x08f2220fb0fb66eb]

/-- The limbs of the second component of `frob12W1`, fp12.go lines 83-86. -/
def frob12W1.limbs1 : List Nat :=
  [0xb2f66aad4ce5d646, 0x5842a06bfc497cec, 0xcf4895d42599d394,
   0xc11b9cba40a8e8d0, 0x2e3813cbe5a0de89, 0x110eefda88847faf]

/-- The value `frob12W1_0` given in the comment of fp12.go line 76. -/
def frob12W1_0 : Nat :=
  0x1904d3bf02bb0667c231beb4202c0d1f0fd603fd3cbd5f4f7b2443d784bab9c4f67ea53d63e7813d8d0775ed92235fb8

/-- The value `frob12W1_1` given in the comment of fp12.go line 77. -/
def frob12W1_1 : Nat :=
  0xfc3e2b36c4e03288e9e902231f9fb854a14787b6c7b36fec0c8ec971f63c5f282d5ac14d6c7ec22cf78a126ddc4af3

/-- The two integers that `var frob12W1` stands for, fp12.go lines 78-87: the
values of its limbs taken out of Montgomery form. -/
def frob12W1.val : Nat × Nat :=
  (Fp.fromMont (Fp.limbsValue frob12W1.limbs0), Fp.fromMont (Fp.limbsValue frob12W1.limbs1))

/-- A pair of integers read as an element of Fp2 over the integers modulo `n`. -/
def Fp2.ofNatPair (n : Nat) (a : Nat × Nat) : Fp2 (ZMod n) :=
  { a0 := (a.1 : ZMod n), a1 := (a.2 : ZMod n) }

/-- `var frob12W1`, fp12.go lines 78-87, as an element of Fp2 over the integers
modulo `p`. -/
def frob12W1 : Fp2 (ZMod fpPrime) := Fp2.ofNatPair fpPrime frob12W1.val

/-- `func (z *Fp12) Frob(x *Fp12)`, fp12.go line 20:
`z[0].Frob(&x[0]); z[1].Frob(&x[1]); z[1].Mul(&z[1], &Fp6{frob12W1})`.
`frob6` is `Fp6.Frob`; the composite literal `Fp6{frob12W1}` is the triple
`(frob12W1, Fp2{}, Fp2{})`. -/
def Fp12.Frob {K : Type} (ops2 : Fp2Ops K) (ops : Fp6Ops (Fp6 K)) (frob6 : Fp6 K → Fp6 K)
    (frob12W1 : K) (x : Fp12 (Fp6 K)) : Fp12 (Fp6 K) :=
  let z0 := frob6 x.d0
  let z1 := frob6 x.d1
  let z1 := ops.Mul z1 { c0 := frob12W1, c1 := ops2.Zero, c2 := ops2.Zero }
  { d0 := z0, d1 := z1 }

/-- The power `a^n` in Fp6 by repeated `Fp6.Mul`, starting from one; the
`p`-power map is `a ↦ a^p`. -/
def Fp6Ops.pow {F : Type} (ops : Fp6Ops F) (a : F) : Nat → F
  | 0 => ops.One
  | n + 1 => ops.Mul (Fp6Ops.pow ops a n) a

/-- The product of Fp2 on pairs of integers reduced modulo `n`. -/
def Fp2.mulNat (n : Nat) (a b : Nat × Nat) : Nat × Nat :=
  ((a.1 * b.1 + (n - (a.2 * b.2) % n)) % n, (a.1 * b.2 + a.2 * b.1) % n)

/-- Square-and-multiply along a list of exponent bits, most significant first. -/
def powBits {M : Type} (mul : M → M → M) (one : M) (x : M) (bits : List Bool) : M :=
  bits.foldl (fun acc b => if b then mul (mul acc acc) x else mul acc acc) one

/-- The integer with the given bits, most significant first. -/
def bitsValue (bits : List Bool) : Nat :=
  bits.foldl (fun acc b => 2 * acc + (if b then 1 else 0)) 0

/-- The bits of `n`, most significant first, put in front of `acc`. -/
def natBits : Nat → Nat → List Bool → List Bool
  | 0, _, acc => acc
  | fuel + 1, n, acc => if n = 0 then acc else natBits fuel (n / 2) (decide (n % 2 = 1) :: acc)

/-- The conjugation `a0 + a1*u ↦ a0 - a1*u` of Fp2. -/
def Fp2.conj {B : Type} [CommRing B] (a : Fp2 B) : Fp2 B := { a0 := a.a0, a1 := -a.a1 }

/-- An explicit Frobenius of Fp6 = Fp2[v]/(v^3 - (u+1)):
`(c0, c1, c2) ↦ (conj c0, conj c1 * g, conj c2 * g^2)`. -/
def Fp6.frobWith {B : Type} [CommRing B] (g : Fp2 B) (a : Fp6 (Fp2 B)) : Fp6 (Fp2 B) :=
  { c0 := Fp2.conj a.c0, c1 := Fp2.conj a.c1 * g, c2 := Fp2.conj a.c2 * (g * g) }

/-! ## Properties of fp12.go -/

/-- Claim C1: over a commutative ring Fp6 with `MulBeta` multiplication by `v`,
`Fp12.Mul(x, y)` is the product of `x0 + x1*w` and `y0 + y1*w` modulo `w^2 = v`:
first component `x0*y0 + v*(x1*y1)`, second component `x0*y1 + x1*y0`. -/
theorem Fp12.Mul_eq_quadratic_product {F : Type} [CommRing F] (v : F) (x y : Fp12 F) :
    Fp12.Mul (Fp6Ops.ofRing v) x y =
      { d0 := x.d0 * y.d0 + v * (x.d1 * y.d1), d1 := x.d0 * y.d1 + x.d1 * y.d0 } := by
  ext
  · simp only [Fp12.Mul, Fp6Ops.ofRing]
  · simp only [Fp12.Mul, Fp6Ops.ofRing]
    ring

/-- Squaring agrees with multiplication by itself over a commutative ring. -/
theorem Fp12.Sqr_eq_Mul_aux {F : Type} [CommRing F] (v : F) (x : Fp12 F) :
    Fp12.Sqr (Fp6Ops.ofRing v) x = Fp12.Mul (Fp6Ops.ofRing v) x x := by
  ext
  · simp only [Fp12.Sqr, Fp12.Mul, Fp6Ops.ofRing]
  · simp only [Fp12.Sqr, Fp12.Mul, Fp6Ops.ofRing]
    ring

/-- Claim C9: over a commutative ring Fp6 with `Sqr a = a*a` and `MulBeta`
multiplication by `v`, `Fp12.Sqr(x)` equals `Fp12.Mul(x, x)`. -/
theorem Fp12.Sqr_eq_Mul_self {F : Type} [CommRing F] (v : F) (x : Fp12 F) :
    Fp12.Sqr (Fp6Ops.ofRing v) x = Fp12.Mul (Fp6Ops.ofRing v) x x :=
  Fp12.Sqr_eq_Mul_aux v x

/-! ### Exponentiation -/

/-- `Fp12.Mul` is associative over a commutative ring. -/
theorem Fp12.Mul_assoc_aux {F : Type} [CommRing F] (v : F) (x y z : Fp12 F) :
    Fp12.Mul (Fp6Ops.ofRing v) (Fp12.Mul (Fp6Ops.ofRing v) x y) z =
      Fp12.Mul (Fp6Ops.ofRing v) x (Fp12.Mul (Fp6Ops.ofRing v) y z) := by
  ext
  · simp only [Fp12.Mul, Fp6Ops.ofRing]
    ring
  · simp only [Fp12.Mul, Fp6Ops.ofRing]
    ring

/-- The element produced by `SetOne` is a right identity of `Fp12.Mul`. -/
theorem Fp12.Mul_SetOne_aux {F : Type} [CommRing F] (v : F) (x : Fp12 F) :
    Fp12.Mul (Fp6Ops.ofRing v) x (Fp12.SetOne (Fp6Ops.ofRing v)) = x := by
  ext
  · simp only [Fp12.Mul, Fp12.SetOne, Fp6Ops.ofRing]
    ring
  · simp only [Fp12.Mul, Fp12.SetOne, Fp6Ops.ofRing]
    ring

/-- Powers add up: `x^(a+b) = x^a * x^b`. -/
theorem Fp12.powMul_add {F : Type} [CommRing F] (v : F) (x : Fp12 F) (a b : Nat) :
    Fp12.powMul (Fp6Ops.ofRing v) x (a + b) =
      Fp12.Mul (Fp6Ops.ofRing v) (Fp12.powMul (Fp6Ops.ofRing v) x a)
        (Fp12.powMul (Fp6Ops.ofRing v) x b) := by
  induction b with
  | zero => simp [Fp12.powMul, Fp12.Mul_SetOne_aux]
  | succ b ih =>
    rw [← Nat.add_assoc]
    simp only [Fp12.powMul]
    rw [ih, Fp12.Mul_assoc_aux]

/-- Every index `i/8` the loop of `ExpVarTime` reads lies inside `n`. -/
theorem ExpVarTime.index_in_range (n : List Byte) (i : Nat) (hi : i < 8 * n.length) :
    i / 8 < n.length ∧ (n.getD (i / 8) 0) = n.get ⟨i / 8, by omega⟩ := by
  have h : i / 8 < n.length := by omega
  exact ⟨h, by simp [List.getD_eq_getElem?_getD, List.getElem?_eq_getElem h]⟩

/-- The bit read by `ExpVarTime` is 0 or 1. -/
theorem ExpVarTime.bit_le_one (n : List Byte) (i : Nat) : ExpVarTime.bit n i ≤ 1 := by
  simp only [ExpVarTime.bit, Nat.one_and_eq_mod_two]
  omega

/-- One iteration of the loop takes `x^a` to `x^(2a + bit)`. -/
theorem ExpVarTime.step_powMul {F : Type} [CommRing F] (v : F) (x : Fp12 F)
    (n : List Byte) (a i : Nat) :
    ExpVarTime.step (Fp6Ops.ofRing v) x n (Fp12.powMul (Fp6Ops.ofRing v) x a) i =
      Fp12.powMul (Fp6Ops.ofRing v) x (2 * a + ExpVarTime.bit n i) := by
  have hb := ExpVarTime.bit_le_one n i
  have h2 : 2 * a = a + a := by omega
  simp only [ExpVarTime.step, Fp12.Sqr_eq_Mul_aux, ← Fp12.powMul_add]
  by_cases h : ExpVarTime.bit n i = 0
  · simp [h, h2]
  · have h1 : ExpVarTime.bit n i = 1 := by omega
    simp [h1, h2, Fp12.powMul]

/-- Running the loop body over any list of indices keeps the accumulator a
power of `x`, the exponent being shifted left by the bits read. -/
theorem ExpVarTime.foldl_powMul {F : Type} [CommRing F] (v : F) (x : Fp12 F)
    (n : List Byte) (is : List Nat) : ∀ a : Nat,
    is.foldl (ExpVarTime.step (Fp6Ops.ofRing v) x n) (Fp12.powMul (Fp6Ops.ofRing v) x a) =
      Fp12.powMul (Fp6Ops.ofRing v) x
        (is.foldl (fun e i => 2 * e + ExpVarTime.bit n i) a) := by
  induction is with
  | nil => intro a; rfl
  | cons i is ih =>
    intro a
    simp only [List.foldl]
    rw [ExpVarTime.step_powMul, ih]

/-- Past the first byte the loop reads the bits of the remaining bytes. -/
theorem ExpVarTime.bit_cons_shift (b : Byte) (m : List Byte) (i : Nat) :
    ExpVarTime.bit (b :: m) (8 + i) = ExpVarTime.bit m i := by
  have h1 : (8 + i) / 8 = i / 8 + 1 := by omega
  have h2 : (8 + i) % 8 = i % 8 := by omega
  simp [ExpVarTime.bit, h1, h2]

/-- The eight bits read from the first byte, most significant first, rebuild it. -/
theorem ExpVarTime.bits_byte (b : Byte) (m : List Byte) (acc : Nat) :
    (List.range 8).foldl (fun a i => 2 * a + ExpVarTime.bit (b :: m) i) acc =
      256 * acc + b.val := by
  have hb : b.val < 256 := b.isLt
  simp only [List.range, List.range.loop, List.foldl, ExpVarTime.bit]
  simp [Nat.shiftRight_eq_div_pow]
  omega

/-- The bits read over the whole loop rebuild the big-endian value of `n`. -/
theorem ExpVarTime.bits_value (n : List Byte) : ∀ acc : Nat,
    (List.range (8 * n.length)).foldl (fun a i => 2 * a + ExpVarTime.bit n i) acc =
      n.foldl (fun a b => 256 * a + b.val) acc := by
  induction n with
  | nil => intro acc; simp
  | cons b m ih =>
    intro acc
    have hlen : 8 * (b :: m).length = 8 + 8 * m.length := by simp; omega
    rw [hlen, List.range_add, List.foldl_append, List.foldl_map, ExpVarTime.bits_byte]
    simp only [ExpVarTime.bit_cons_shift]
    rw [ih]
    simp

/-- A string of zero bytes encodes 0. -/
theorem beValue_replicate_zero (k : Nat) : beValue (List.replicate k (0 : Byte)) = 0 := by
  unfold beValue
  induction k with
  | zero => rfl
  | succ k ih => simpa [List.replicate_succ] using ih

/-- Claim C3: over a commutative ring Fp6 (`Sqr a = a*a`, `MulBeta` multiplication
by `v`), `ExpVarTime(x, n)` is `x` raised to the integer that `n` encodes in
big-endian order, the power being `x` multiplied in with `Fp12.Mul` that many
times starting from one; when `n` encodes 0, in particular for the empty string
and for all-zero bytes, the result is the element produced by `SetOne`. -/
theorem Fp12.ExpVarTime_eq_powMul {F : Type} [CommRing F] (v : F) (x : Fp12 F)
    (n : List Byte) :
    Fp12.ExpVarTime (Fp6Ops.ofRing v) x n =
      Fp12.powMul (Fp6Ops.ofRing v) x (beValue n) ∧
    (beValue n = 0 →
      Fp12.ExpVarTime (Fp6Ops.ofRing v) x n = Fp12.SetOne (Fp6Ops.ofRing v)) ∧
    Fp12.ExpVarTime (Fp6Ops.ofRing v) x [] = Fp12.SetOne (Fp6Ops.ofRing v) ∧
    (∀ k : Nat, Fp12.ExpVarTime (Fp6Ops.ofRing v) x (List.replicate k (0 : Byte)) =
      Fp12.SetOne (Fp6Ops.ofRing v)) := by
  have key : ∀ m : List Byte, Fp12.ExpVarTime (Fp6Ops.ofRing v) x m =
      Fp12.powMul (Fp6Ops.ofRing v) x (beValue m) := by
    intro m
    have h := ExpVarTime.foldl_powMul v x m (List.range (8 * m.length)) 0
    rw [ExpVarTime.bits_value] at h
    exact h
  refine ⟨key n, ?_, rfl, ?_⟩
  · intro h0
    rw [key n, h0]
    rfl
  · intro k
    rw [key, beValue_replicate_zero]
    rfl

/-- Witness for C3 over the integers with `v = 3`: the two-byte string `00 00`
encodes 0 and `ExpVarTime` returns one. -/
theorem Fp12.ExpVarTime_eq_powMul_witness :
    beValue [0, 0] = 0 ∧
    Fp12.ExpVarTime (Fp6Ops.ofRing (3 : ℤ)) { d0 := 2, d1 := 5 } [0, 0] =
      Fp12.SetOne (Fp6Ops.ofRing (3 : ℤ)) :=
  ⟨by decide,
    (Fp12.ExpVarTime_eq_powMul (3 : ℤ) { d0 := 2, d1 := 5 } [0, 0]).2.1 (by decide)⟩

/-- The denominator `x0^2 - v*x1^2` computed by `Fp12.Inv` does not vanish on a
non-zero element when `v` is not a square. -/
theorem Fp12.den_ne_zero {F : Type} [Field F] (v : F) (hv : ∀ a : F, a * a ≠ v)
    (x : Fp12 F) (hx : x ≠ Fp12.zero (Fp6Ops.ofRing v)) :
    x.d0 * x.d0 - v * (x.d1 * x.d1) ≠ 0 := by
  intro h
  by_cases h1 : x.d1 = 0
  · have h0 : x.d0 = 0 := by
      rw [h1] at h
      simpa using h
    apply hx
    ext
    · simpa [Fp12.zero, Fp6Ops.ofRing] using h0
    · simpa [Fp12.zero, Fp6Ops.ofRing] using h1
  · apply hv (x.d0 / x.d1)
    field_simp
    linear_combination h

/-- Claim C2: over a field Fp6 in which `v` is not a square, with `Fp6.Inv` the
field inverse, every non-zero `x` satisfies `Mul(x, Inv(x)) = one`, the element
produced by `SetOne`. -/
theorem Fp12.Mul_Inv_eq_one {F : Type} [Field F] (v : F) (hv : ∀ a : F, a * a ≠ v)
    (x : Fp12 F) (hx : x ≠ Fp12.zero (Fp6Ops.ofRing v)) :
    Fp12.Mul (Fp6Ops.ofRing v) x (Fp12.Inv (Fp6Ops.ofRing v) (fun a => a⁻¹) x) =
      Fp12.SetOne (Fp6Ops.ofRing v) := by
  have hden := Fp12.den_ne_zero v hv x hx
  ext
  · simp only [Fp12.Mul, Fp12.Inv, Fp12.SetOne, Fp6Ops.ofRing]
    field_simp
    ring
  · simp only [Fp12.Mul, Fp12.Inv, Fp12.SetOne, Fp6Ops.ofRing]
    ring

/-- Witness for C2 in the field with three elements, where 2 is not a square:
the inverse of `1 + w` multiplied by `1 + w` is one. -/
theorem Fp12.Mul_Inv_eq_one_witness :
    (∀ a : ZMod 3, a * a ≠ 2) ∧
    (({ d0 := 1, d1 := 1 } : Fp12 (ZMod 3)) ≠ Fp12.zero (Fp6Ops.ofRing 2)) ∧
    Fp12.Mul (Fp6Ops.ofRing (2 : ZMod 3)) { d0 := 1, d1 := 1 }
        (Fp12.Inv (Fp6Ops.ofRing 2) (fun a => a⁻¹) { d0 := 1, d1 := 1 }) =
      Fp12.SetOne (Fp6Ops.ofRing 2) :=
  ⟨by decide, by decide,
    Fp12.Mul_Inv_eq_one (2 : ZMod 3) (by decide) { d0 := 1, d1 := 1 } (by decide)⟩

/-- Claim C13: `Fp12.Inv` of the zero element is the zero element.  Over a
commutative ring Fp6 this holds for every total `Fp6.Inv`, in particular for one
that sends zero to zero: both components are products with a zero factor, so
inversion returns a value on zero and that value is zero. -/
theorem Fp12.Inv_zero {F : Type} [CommRing F] (v : F) (inv6 : F → F) :
    Fp12.Inv (Fp6Ops.ofRing v) inv6 (Fp12.zero (Fp6Ops.ofRing v)) =
      Fp12.zero (Fp6Ops.ofRing v) := by
  ext
  · simp [Fp12.Inv, Fp12.zero, Fp6Ops.ofRing]
  · simp [Fp12.Inv, Fp12.zero, Fp6Ops.ofRing]

/-- Claim C15: over a commutative ring Fp6 with `MulBeta` multiplication by `v`,
the product `Mul(Cjg(x), x)`, where `Cjg` negates the second component, has zero
second component and first component `x0^2 - v*x1^2`. -/
theorem Fp12.Mul_Cjg_self {F : Type} [CommRing F] (v : F) (x : Fp12 F) :
    Fp12.Cjg (Fp6Ops.ofRing v) x = { d0 := x.d0, d1 := -x.d1 } ∧
    Fp12.Mul (Fp6Ops.ofRing v) (Fp12.Cjg (Fp6Ops.ofRing v) x) x =
      { d0 := x.d0 ^ 2 - v * x.d1 ^ 2, d1 := 0 } := by
  refine ⟨rfl, ?_⟩
  ext
  · simp only [Fp12.Mul, Fp12.Cjg, Fp6Ops.ofRing]
    ring
  · simp only [Fp12.Mul, Fp12.Cjg, Fp6Ops.ofRing]
    ring

/-- Claim C16: over a commutative ring Fp6, the element produced by
`Fp12.SetOne` is a multiplicative identity: `Mul(one, x) = x` and
`Mul(x, one) = x` for every `x`. -/
theorem Fp12.SetOne_Mul_identity {F : Type} [CommRing F] (v : F) (x : Fp12 F) :
    Fp12.Mul (Fp6Ops.ofRing v) (Fp12.SetOne (Fp6Ops.ofRing v)) x = x ∧
    Fp12.Mul (Fp6Ops.ofRing v) x (Fp12.SetOne (Fp6Ops.ofRing v)) = x := by
  refine ⟨?_, Fp12.Mul_SetOne_aux v x⟩
  ext
  · simp only [Fp12.Mul, Fp12.SetOne, Fp6Ops.ofRing]
    ring
  · simp only [Fp12.Mul, Fp12.SetOne, Fp6Ops.ofRing]
    ring

/-! ### Serialization -/

set_option maxRecDepth 20000 in
/-- Claim C10 as stated fails: for `z = (d0, d1)` with `d0 = 0` and `d1 = 1`, the
first `Fp6Size` bytes of `z.Bytes()` are the encoding of `d0`, not of `d1`, and
the last `Fp6Size` bytes are the encoding of `d1`, not of `d0`. -/
theorem Fp12.Bytes_not_d1_then_d0 :
    (Fp12.Bytes Fp6.Bytes
        { d0 := { c0 := { a0 := 0, a1 := 0 }, c1 := { a0 := 0, a1 := 0 },
                  c2 := { a0 := 0, a1 := 0 } }
          d1 := { c0 := { a0 := 1, a1 := 0 }, c1 := { a0 := 0, a1 := 0 },
                  c2 := { a0 := 0, a1 := 0 } } }).take Fp6Size ≠
      Fp6.Bytes { c0 := { a0 := 1, a1 := 0 }, c1 := { a0 := 0, a1 := 0 },
                  c2 := { a0 := 0, a1 := 0 } } ∧
    (Fp12.Bytes Fp6.Bytes
        { d0 := { c0 := { a0 := 0, a1 := 0 }, c1 := { a0 := 0, a1 := 0 },
                  c2 := { a0 := 0, a1 := 0 } }
          d1 := { c0 := { a0 := 1, a1 := 0 }, c1 := { a0 := 0, a1 := 0 },
                  c2 := { a0 := 0, a1 := 0 } } }).drop Fp6Size ≠
      Fp6.Bytes { c0 := { a0 := 0, a1 := 0 }, c1 := { a0 := 0, a1 := 0 },
                  c2 := { a0 := 0, a1 := 0 } } := by
  decide

/-- Claim C10, amended: `Fp12.Bytes()` of `z = (d0, d1)` is the encoding of `d0`
followed by the encoding of `d1`; when both encodings have `Fp6Size` bytes, the
first `Fp6Size` bytes are `d0.Bytes()`, the last `Fp6Size` bytes are
`d1.Bytes()`, and the length is `Fp12Size`. -/
theorem Fp12.Bytes_d0_then_d1 {F : Type} (bytes6 : F → List Byte) (z : Fp12 F)
    (h0 : (bytes6 z.d0).length = Fp6Size) (h1 : (bytes6 z.d1).length = Fp6Size) :
    Fp12.Bytes bytes6 z = bytes6 z.d0 ++ bytes6 z.d1 ∧
    (Fp12.Bytes bytes6 z).take Fp6Size = bytes6 z.d0 ∧
    (Fp12.Bytes bytes6 z).drop Fp6Size = bytes6 z.d1 ∧
    (Fp12.Bytes bytes6 z).length = Fp12Size := by
  refine ⟨rfl, ?_, ?_, ?_⟩
  · rw [← h0]
    exact List.take_left' rfl
  · rw [← h0]
    exact List.drop_left' rfl
  · simp [Fp12.Bytes, h0, h1, Fp12Size]
    omega

set_option maxRecDepth 20000 in
/-- Witness for C10 (amended) with the encoding of Fp6 modelled from the spec,
at `z = (0, 1)`. -/
theorem Fp12.Bytes_d0_then_d1_witness :
    (Fp6.Bytes { c0 := { a0 := 0, a1 := 0 }, c1 := { a0 := 0, a1 := 0 },
                 c2 := { a0 := 0, a1 := 0 } }).length = Fp6Size ∧
    (Fp6.Bytes { c0 := { a0 := 1, a1 := 0 }, c1 := { a0 := 0, a1 := 0 },
                 c2 := { a0 := 0, a1 := 0 } }).length = Fp6Size ∧
    (Fp12.Bytes Fp6.Bytes
        { d0 := { c0 := { a0 := 0, a1 := 0 }, c1 := { a0 := 0, a1 := 0 },
                  c2 := { a0 := 0, a1 := 0 } }
          d1 := { c0 := { a0 := 1, a1 := 0 }, c1 := { a0 := 0, a1 := 0 },
                  c2 := { a0 := 0, a1 := 0 } } }).length = Fp12Size :=
  ⟨by decide, by decide,
    (Fp12.Bytes_d0_then_d1 Fp6.Bytes
        { d0 := { c0 := { a0 := 0, a1 := 0 }, c1 := { a0 := 0, a1 := 0 },
                  c2 := { a0 := 0, a1 := 0 } }
          d1 := { c0 := { a0 := 1, a1 := 0 }, c1 := { a0 := 0, a1 := 0 },
                  c2 := { a0 := 0, a1 := 0 } } }
        (by decide) (by decide)).2.2.2⟩

/-! ### Deserialization -/

/-- With a capacity of at least `Fp12Size` both slice expressions of
`Fp12.SetBytes` are in range, and the result is made of `Fp6.SetBytes` on the
first and on the second run of `Fp6Size` bytes of the backing array. -/
theorem Fp12.SetBytes_of_cap_ge {E F : Type} (ef : Option E → Option E → Option E)
    (sb : F → List Byte → Option E × F) (z : Fp12 F) (b : Slice)
    (hcap : Fp12Size ≤ b.cap) :
    Fp12.SetBytes ef sb z b =
      some (ef (sb z.d0 ((b.vis ++ b.spare).take Fp6Size)).1
              (sb z.d1 (((b.vis ++ b.spare).drop Fp6Size).take Fp6Size)).1,
            { d0 := (sb z.d0 ((b.vis ++ b.spare).take Fp6Size)).2
              d1 := (sb z.d1 (((b.vis ++ b.spare).drop Fp6Size).take Fp6Size)).2 }) := by
  have h12 : Fp12Size = 2 * Fp6Size := rfl
  have h1 : Fp6Size ≤ b.cap := by omega
  have h2 : Fp6Size ≤ 2 * Fp6Size ∧ 2 * Fp6Size ≤ b.cap := ⟨by omega, by omega⟩
  have h3 : 2 * Fp6Size - Fp6Size = Fp6Size := by omega
  simp [Fp12.SetBytes, Slice.slice, h1, h2, h3]

/-- With a capacity below `Fp12Size` one of the two slice expressions of
`Fp12.SetBytes` is out of range. -/
theorem Fp12.SetBytes_of_cap_lt {E F : Type} (ef : Option E → Option E → Option E)
    (sb : F → List Byte → Option E × F) (z : Fp12 F) (b : Slice)
    (hcap : b.cap < Fp12Size) :
    Fp12.SetBytes ef sb z b = none := by
  have h12 : Fp12Size = 2 * Fp6Size := rfl
  have h2 : ¬ (Fp6Size ≤ 2 * Fp6Size ∧ 2 * Fp6Size ≤ b.cap) := by omega
  by_cases h1 : Fp6Size ≤ b.cap
  · simp [Fp12.SetBytes, Slice.slice, h1, h2]
  · simp [Fp12.SetBytes, Slice.slice, h1]

/-- The two halves read by `Fp12.SetBytes` are determined by the first
`Fp12Size` bytes in view when there are that many. -/
theorem Slice.halves_of_len_ge (b : Slice) (hlen : Fp12Size ≤ b.len) :
    (b.vis ++ b.spare).take Fp6Size = (b.vis.take Fp12Size).take Fp6Size ∧
    ((b.vis ++ b.spare).drop Fp6Size).take Fp6Size =
      ((b.vis.take Fp12Size).drop Fp6Size).take Fp6Size := by
  have h12 : Fp12Size = 2 * Fp6Size := rfl
  have hl : Fp12Size ≤ b.vis.length := hlen
  have e : b.vis.take Fp12Size = (b.vis ++ b.spare).take Fp12Size :=
    (List.take_append_of_le_length hl).symm
  rw [e]
  constructor
  · rw [List.take_take]
    congr 1
  · rw [List.drop_take, List.take_take]
    congr 1

/-- Claim C11: serialization round-trips at the Fp12 level.  When the encodings
of the two components of `x` have `Fp6Size` bytes and `Fp6.SetBytes` decodes
each of them without error to that component, `x.Bytes()` has length
`Fp12Size = 2*Fp6Size = 576` and `SetBytes(x.Bytes())` returns no error and
yields `x`, whatever the receiver held and whatever the capacity of the slice.
Of the helper `errFirst` only this is used: it reports no error when neither of
its arguments is one. -/
theorem Fp12.SetBytes_Bytes_roundtrip {E F : Type}
    (errFirst : Option E → Option E → Option E) (bytes6 : F → List Byte)
    (setBytes6 : F → List Byte → Option E × F) (z x : Fp12 F) (spare : List Byte)
    (hnil : errFirst none none = none)
    (hlen0 : (bytes6 x.d0).length = Fp6Size) (hlen1 : (bytes6 x.d1).length = Fp6Size)
    (h0 : setBytes6 z.d0 (bytes6 x.d0) = (none, x.d0))
    (h1 : setBytes6 z.d1 (bytes6 x.d1) = (none, x.d1)) :
    (Fp12.Bytes bytes6 x).length = Fp12Size ∧ Fp12Size = 2 * Fp6Size ∧ Fp12Size = 576 ∧
    Fp12.SetBytes errFirst setBytes6 z { vis := Fp12.Bytes bytes6 x, spare := spare } =
      some (none, x) := by
  have h12 : Fp12Size = 2 * Fp6Size := rfl
  have hlen : (Fp12.Bytes bytes6 x).length = Fp12Size := by
    simp [Fp12.Bytes, hlen0, hlen1]
    omega
  refine ⟨hlen, rfl, rfl, ?_⟩
  have hcap : Fp12Size ≤ (Slice.mk (Fp12.Bytes bytes6 x) spare).cap := by
    simp only [Slice.cap, hlen]
    omega
  rw [Fp12.SetBytes_of_cap_ge _ _ _ _ hcap]
  have e0 : (Fp12.Bytes bytes6 x ++ spare).take Fp6Size = bytes6 x.d0 := by
    simp only [Fp12.Bytes, List.append_assoc]
    exact List.take_left' hlen0
  have e1 : ((Fp12.Bytes bytes6 x ++ spare).drop Fp6Size).take Fp6Size = bytes6 x.d1 := by
    simp only [Fp12.Bytes, List.append_assoc]
    rw [List.drop_left' hlen0]
    exact List.take_left' hlen1
  simp only [e0, e1, h0, h1, hnil]

set_option maxRecDepth 50000 in
/-- Witness for C11 with the encodings of Fp6 modelled from the spec and a
helper that rejects when one of its arguments is an error: `x = (1, 0)` is
written to 576 bytes and read back into a receiver holding `(0, 1)`, from a
slice with two spare bytes. -/
theorem Fp12.SetBytes_Bytes_roundtrip_witness :
    (fun (e0 e1 : Option SetBytesError) =>
          if e0 = none ∧ e1 = none then none else some SetBytesError.OutOfRange) none none = none ∧
    (Fp6.Bytes Fp6.natOne).length = Fp6Size ∧ (Fp6.Bytes Fp6.natZero).length = Fp6Size ∧
    Fp6.SetBytes Fp6.natZero (Fp6.Bytes Fp6.natOne) = (none, Fp6.natOne) ∧
    Fp6.SetBytes Fp6.natOne (Fp6.Bytes Fp6.natZero) = (none, Fp6.natZero) ∧
    Fp12.SetBytes (fun (e0 e1 : Option SetBytesError) =>
          if e0 = none ∧ e1 = none then none else some SetBytesError.OutOfRange) Fp6.SetBytes
        { d0 := Fp6.natZero, d1 := Fp6.natOne }
        { vis := Fp12.Bytes Fp6.Bytes { d0 := Fp6.natOne, d1 := Fp6.natZero }
          spare := [7, 9] } =
      some (none, { d0 := Fp6.natOne, d1 := Fp6.natZero }) :=
  ⟨by decide, by decide, by decide, by decide, by decide,
    (Fp12.SetBytes_Bytes_roundtrip (fun (e0 e1 : Option SetBytesError) =>
          if e0 = none ∧ e1 = none then none else some SetBytesError.OutOfRange) Fp6.Bytes Fp6.SetBytes
      { d0 := Fp6.natZero, d1 := Fp6.natOne } { d0 := Fp6.natOne, d1 := Fp6.natZero }
      [7, 9] (by decide) (by decide) (by decide) (by decide) (by decide)).2.2.2⟩

set_option maxRecDepth 50000 in
/-- Claim C20 as stated fails: a slice of length 0 and capacity 576 is shorter
than `Fp12Size`, yet both slice expressions are in range; `SetBytes` reads the
576 zero bytes of the backing array and returns the value zero, with no error
for a helper that reports none when neither half failed; whatever the helper
`errFirst` is, there is no panic. -/
theorem Fp12.SetBytes_short_len_no_panic :
    (Slice.mk [] (List.replicate 576 0)).len < Fp12Size ∧
    Fp12.SetBytes
        (fun (e0 e1 : Option SetBytesError) =>
          if e0 = none ∧ e1 = none then none else some SetBytesError.OutOfRange)
        Fp6.SetBytes { d0 := Fp6.natOne, d1 := Fp6.natOne }
        (Slice.mk [] (List.replicate 576 0)) =
      some (none, { d0 := Fp6.natZero, d1 := Fp6.natZero }) ∧
    Fp12.SetBytes
        (fun (e0 e1 : Option SetBytesError) =>
          if e0 = none ∧ e1 = none then none else some SetBytesError.OutOfRange)
        Fp6.SetBytes { d0 := Fp6.natOne, d1 := Fp6.natOne }
        (Slice.mk [] (List.replicate 576 0)) ≠ none ∧
    (∀ errFirst : Option SetBytesError → Option SetBytesError → Option SetBytesError,
      Fp12.SetBytes errFirst Fp6.SetBytes { d0 := Fp6.natOne, d1 := Fp6.natOne }
        (Slice.mk [] (List.replicate 576 0)) ≠ none) :=
  ⟨by decide, by decide, by decide, fun errFirst => by
    rw [Fp12.SetBytes_of_cap_ge errFirst Fp6.SetBytes _ _ (by decide)]
    exact Option.some_ne_none _⟩

/-- Claim C20, amended: `Fp12.SetBytes` performs no length check of its own.
For every slice `b` with `len(b) >= Fp12Size` the slice expressions are in range
and the result (value and error) depends only on the first `Fp12Size` bytes, so
trailing bytes are ignored.  The slicing is out of range, and no error value is
returned, when `cap(b) < Fp12Size`, in particular when `len(b) < Fp12Size` and
`b` has no spare capacity; with `cap(b) >= Fp12Size` it is in range whatever the
length, and the first `Fp12Size` bytes of the backing array are read. -/
theorem Fp12.SetBytes_no_length_check {E F : Type}
    (errFirst : Option E → Option E → Option E)
    (setBytes6 : F → List Byte → Option E × F) (z : Fp12 F) :
    (∀ b b1 : Slice, Fp12Size ≤ b.len → Fp12Size ≤ b1.len →
      b.vis.take Fp12Size = b1.vis.take Fp12Size →
      Fp12.SetBytes errFirst setBytes6 z b ≠ none ∧
      Fp12.SetBytes errFirst setBytes6 z b = Fp12.SetBytes errFirst setBytes6 z b1) ∧
    (∀ b : Slice, b.cap < Fp12Size → Fp12.SetBytes errFirst setBytes6 z b = none) ∧
    (∀ b : Slice, b.len < Fp12Size → b.spare = [] →
      Fp12.SetBytes errFirst setBytes6 z b = none) ∧
    (∀ b : Slice, Fp12Size ≤ b.cap →
      Fp12.SetBytes errFirst setBytes6 z b =
        some (errFirst (setBytes6 z.d0 ((b.vis ++ b.spare).take Fp6Size)).1
                (setBytes6 z.d1 (((b.vis ++ b.spare).drop Fp6Size).take Fp6Size)).1,
              { d0 := (setBytes6 z.d0 ((b.vis ++ b.spare).take Fp6Size)).2
                d1 := (setBytes6 z.d1
                  (((b.vis ++ b.spare).drop Fp6Size).take Fp6Size)).2 })) := by
  refine ⟨?_, ?_, ?_, ?_⟩
  · intro b b1 hb hb1 heq
    have hcap : Fp12Size ≤ b.cap := by
      have : b.len ≤ b.cap := by simp [Slice.len, Slice.cap]
      omega
    have hcap1 : Fp12Size ≤ b1.cap := by
      have : b1.len ≤ b1.cap := by simp [Slice.len, Slice.cap]
      omega
    obtain ⟨e0, e1⟩ := Slice.halves_of_len_ge b hb
    obtain ⟨f0, f1⟩ := Slice.halves_of_len_ge b1 hb1
    rw [Fp12.SetBytes_of_cap_ge _ _ _ _ hcap, Fp12.SetBytes_of_cap_ge _ _ _ _ hcap1,
      e0, e1, f0, f1, heq]
    exact ⟨by simp, rfl⟩
  · intro b hb
    exact Fp12.SetBytes_of_cap_lt _ _ _ _ hb
  · intro b hb hs
    apply Fp12.SetBytes_of_cap_lt
    simpa [Slice.cap, Slice.len, hs] using hb
  · intro b hb
    exact Fp12.SetBytes_of_cap_ge _ _ _ _ hb

set_option maxRecDepth 50000 in
/-- Witness for C20 (amended) with `Fp6.SetBytes` modelled from the spec: a slice
of 577 bytes and its first 576 bytes give the same result, and a slice of 575
bytes without spare capacity is out of range. -/
theorem Fp12.SetBytes_no_length_check_witness :
    (Fp12Size ≤ (Slice.mk (List.replicate 577 0) []).len ∧
     Fp12Size ≤ (Slice.mk (List.replicate 576 0) [1]).len ∧
     Fp12.SetBytes
        (fun (e0 e1 : Option SetBytesError) =>
          if e0 = none ∧ e1 = none then none else some SetBytesError.OutOfRange)
        Fp6.SetBytes { d0 := Fp6.natOne, d1 := Fp6.natOne }
         (Slice.mk (List.replicate 577 0) []) =
       Fp12.SetBytes
        (fun (e0 e1 : Option SetBytesError) =>
          if e0 = none ∧ e1 = none then none else some SetBytesError.OutOfRange)
        Fp6.SetBytes { d0 := Fp6.natOne, d1 := Fp6.natOne }
         (Slice.mk (List.replicate 576 0) [1])) ∧
    ((Slice.mk (List.replicate 575 0) []).cap < Fp12Size ∧
     Fp12.SetBytes
        (fun (e0 e1 : Option SetBytesError) =>
          if e0 = none ∧ e1 = none then none else some SetBytesError.OutOfRange)
        Fp6.SetBytes { d0 := Fp6.natOne, d1 := Fp6.natOne }
         (Slice.mk (List.replicate 575 0) []) = none) :=
  ⟨⟨by decide, by decide,
      ((Fp12.SetBytes_no_length_check
          (fun (e0 e1 : Option SetBytesError) =>
          if e0 = none ∧ e1 = none then none else some SetBytesError.OutOfRange)
          Fp6.SetBytes
          { d0 := Fp6.natOne, d1 := Fp6.natOne }).1
        (Slice.mk (List.replicate 577 0) []) (Slice.mk (List.replicate 576 0) [1])
        (by decide) (by decide) (by decide)).2⟩,
    ⟨by decide,
      (Fp12.SetBytes_no_length_check
          (fun (e0 e1 : Option SetBytesError) =>
          if e0 = none ∧ e1 = none then none else some SetBytesError.OutOfRange)
          Fp6.SetBytes
          { d0 := Fp6.natOne, d1 := Fp6.natOne }).2.1
        (Slice.mk (List.replicate 575 0) []) (by decide)⟩⟩

/-! ## Properties of fp12alt.go -/

/-- Claim C4: `FromFp12` and `FromFp12Alt` are mutually inverse, and `FromFp12`
places `z0 = (x00, x11)`, `z1 = (x10, x02)`, `z2 = (x01, x12)`. -/
theorem Fp12Alt.FromFp12_FromFp12Alt_inverse {K : Type} :
    (∀ x : Fp12 (Fp6 K), Fp12.FromFp12Alt (Fp12Alt.FromFp12 x) = x) ∧
    (∀ y : Fp12Alt (Fp4 K), Fp12Alt.FromFp12 (Fp12.FromFp12Alt y) = y) ∧
    (∀ x : Fp12 (Fp6 K),
      (Fp12Alt.FromFp12 x).e0 = { b0 := x.d0.c0, b1 := x.d1.c1 } ∧
      (Fp12Alt.FromFp12 x).e1 = { b0 := x.d1.c0, b1 := x.d0.c2 } ∧
      (Fp12Alt.FromFp12 x).e2 = { b0 := x.d0.c1, b1 := x.d1.c2 }) :=
  ⟨fun _ => rfl, fun _ => rfl, fun _ => ⟨rfl, rfl, rfl⟩⟩

/-- Claim C6: over a commutative ring Fp4 with `MulT` multiplication by `t`,
`Fp12Alt.Mul(x, y)` is the product modulo `w^3 = t`:
`z0 = x0*y0 + t*(x1*y2 + x2*y1)`, `z1 = x0*y1 + x1*y0 + t*(x2*y2)`,
`z2 = x0*y2 + x1*y1 + x2*y0`. -/
theorem Fp12Alt.Mul_eq_cubic_product {G : Type} [CommRing G] (t : G) (x y : Fp12Alt G) :
    Fp12Alt.Mul (Fp4Ops.ofRing t) x y =
      { e0 := x.e0 * y.e0 + t * (x.e1 * y.e2 + x.e2 * y.e1)
        e1 := x.e0 * y.e1 + x.e1 * y.e0 + t * (x.e2 * y.e2)
        e2 := x.e0 * y.e2 + x.e1 * y.e1 + x.e2 * y.e0 } := by
  ext
  · simp only [Fp12Alt.Mul, Fp4Ops.ofRing]
    ring
  · simp only [Fp12Alt.Mul, Fp4Ops.ofRing]
    ring
  · simp only [Fp12Alt.Mul, Fp4Ops.ofRing]
    ring

/-- In the model of Fp6, `MulBeta` is multiplication by `v = (0, 1, 0)`. -/
theorem Fp6.model_MulBeta_eq_Mul_v {K : Type} [CommRing K] (xi : K) (a : Fp6 K) :
    (Fp6.model xi).MulBeta a = (Fp6.model xi).Mul { c0 := 0, c1 := 1, c2 := 0 } a := by
  ext
  all_goals
    simp only [Fp6.model]
    ring

/-- In the model of Fp4, `MulT` is multiplication by `s = (0, 1)`. -/
theorem Fp4.model_MulT_eq_Mul_s {K : Type} [CommRing K] (xi : K) (a : Fp4 K) :
    (Fp4.model xi).MulT a = (Fp4.model xi).Mul { b0 := 0, b1 := 1 } a := by
  ext
  all_goals
    simp only [Fp4.model]
    ring

/-- In the models of Fp6 and Fp4, `v^3 = u + 1` and `s^2 = u + 1`. -/
theorem Fp6.model_v_cubed_Fp4_s_squared {K : Type} [CommRing K] (xi : K) :
    (Fp6.model xi).Mul { c0 := 0, c1 := 1, c2 := 0 }
        ((Fp6.model xi).Mul { c0 := 0, c1 := 1, c2 := 0 } { c0 := 0, c1 := 1, c2 := 0 }) =
      { c0 := xi, c1 := 0, c2 := 0 } ∧
    (Fp4.model xi).Mul { b0 := 0, b1 := 1 } { b0 := 0, b1 := 1 } = { b0 := xi, b1 := 0 } := by
  constructor
  · ext
    all_goals simp [Fp6.model]
  · ext
    all_goals simp [Fp4.model]

/-- Claim C5: with Fp6 = Fp2[v]/(v^3 - (u+1)) and Fp4 = Fp2[s]/(s^2 - (u+1))
built over the same commutative ring Fp2, the basis change commutes with
multiplication: `FromFp12(Fp12.Mul(x, y)) = Fp12Alt.Mul(FromFp12(x), FromFp12(y))`. -/
theorem Fp12Alt.FromFp12_Mul {K : Type} [CommRing K] (xi : K) (x y : Fp12 (Fp6 K)) :
    Fp12Alt.FromFp12 (Fp12.Mul (Fp6.model xi) x y) =
      Fp12Alt.Mul (Fp4.model xi) (Fp12Alt.FromFp12 x) (Fp12Alt.FromFp12 y) := by
  ext
  all_goals
    simp only [Fp12Alt.FromFp12, Fp12.Mul, Fp12Alt.Mul, Fp6.model, Fp4.model]
    ring

/-- `MulLine` against the general `Mul`: the line value `(l0, l1, l2)` acts as
the element `((l0, l2), (0, 0), (l1, 0))`. -/
theorem Fp12Alt.MulLine_eq_Mul_aux {K : Type} [CommRing K] (xi : K)
    (x : Fp12Alt (Fp4 K)) (l : LineValue K) :
    Fp12Alt.MulLine Fp2Ops.ofRing (Fp4.model xi) (Fp4.MulSubfield xi) x l =
      Fp12Alt.Mul (Fp4.model xi) x
        { e0 := { b0 := l.l0, b1 := l.l2 }
          e1 := { b0 := 0, b1 := 0 }
          e2 := { b0 := l.l1, b1 := 0 } } := by
  ext
  all_goals
    simp only [Fp12Alt.MulLine, Fp12Alt.Mul, Fp4.MulSubfield, Fp4.model, Fp2Ops.ofRing]
    ring

/-- Claim C7 as stated fails: over the Gaussian integers with `u + 1 = 1 + i`,
for `x = w` and the line value `(0, 1, 0)`, `MulLine` returns `((0, 1), 0, 0)`
whereas `Mul(x, y)` with `y0 = (l0, l2)`, `y1 = (l1, 0)`, `y2 = (0, 0)` returns
`(0, 0, (1, 0))`. -/
theorem Fp12Alt.MulLine_ne_Mul_spec_encoding :
    Fp12Alt.MulLine Fp2Ops.ofRing (Fp4.model (⟨1, 1⟩ : GaussianInt))
        (Fp4.MulSubfield ⟨1, 1⟩)
        { e0 := { b0 := 0, b1 := 0 }, e1 := { b0 := 1, b1 := 0 }, e2 := { b0 := 0, b1 := 0 } }
        { l0 := 0, l1 := 1, l2 := 0 } =
      { e0 := { b0 := 0, b1 := 1 }, e1 := { b0 := 0, b1 := 0 }, e2 := { b0 := 0, b1 := 0 } } ∧
    Fp12Alt.Mul (Fp4.model (⟨1, 1⟩ : GaussianInt))
        { e0 := { b0 := 0, b1 := 0 }, e1 := { b0 := 1, b1 := 0 }, e2 := { b0 := 0, b1 := 0 } }
        { e0 := { b0 := 0, b1 := 0 }, e1 := { b0 := 1, b1 := 0 }, e2 := { b0 := 0, b1 := 0 } } =
      { e0 := { b0 := 0, b1 := 0 }, e1 := { b0 := 0, b1 := 0 }, e2 := { b0 := 1, b1 := 0 } } ∧
    Fp12Alt.MulLine Fp2Ops.ofRing (Fp4.model (⟨1, 1⟩ : GaussianInt))
        (Fp4.MulSubfield ⟨1, 1⟩)
        { e0 := { b0 := 0, b1 := 0 }, e1 := { b0 := 1, b1 := 0 }, e2 := { b0 := 0, b1 := 0 } }
        { l0 := 0, l1 := 1, l2 := 0 } ≠
      Fp12Alt.Mul (Fp4.model (⟨1, 1⟩ : GaussianInt))
        { e0 := { b0 := 0, b1 := 0 }, e1 := { b0 := 1, b1 := 0 }, e2 := { b0 := 0, b1 := 0 } }
        { e0 := { b0 := 0, b1 := 0 }, e1 := { b0 := 1, b1 := 0 }, e2 := { b0 := 0, b1 := 0 } } := by
  decide

/-- Claim C7, amended: `MulLine(x, l)` equals `Fp12Alt.Mul(x, y)` for the element
`y = (y0, y1, y2)` with `y0 = (l0, l2)`, `y1 = (0, 0)` and `y2 = (l1, 0)`, where
`Fp4.MulSubfield` multiplies by an Fp2 element embedded as `(c, 0)`. -/
theorem Fp12Alt.MulLine_eq_Mul_sparse {K : Type} [CommRing K] (xi : K)
    (x : Fp12Alt (Fp4 K)) (l : LineValue K) :
    Fp12Alt.MulLine Fp2Ops.ofRing (Fp4.model xi) (Fp4.MulSubfield xi) x l =
      Fp12Alt.Mul (Fp4.model xi) x
        { e0 := { b0 := l.l0, b1 := l.l2 }
          e1 := { b0 := 0, b1 := 0 }
          e2 := { b0 := l.l1, b1 := 0 } } :=
  Fp12Alt.MulLine_eq_Mul_aux xi x l

/-- The element `l0 + l1*w^2 + l2*w^3` of Fp12Alt has the coordinates
`((l0, l2), (0, 0), (l1, 0))` in the basis `1, w, w^2` over Fp4. -/
theorem LineValue.toFp12Alt_coords {K : Type} [CommRing K] (xi : K) (l : LineValue K) :
    LineValue.toFp12Alt Fp2Ops.ofRing (Fp4.model xi) l =
      { e0 := { b0 := l.l0, b1 := l.l2 }
        e1 := { b0 := 0, b1 := 0 }
        e2 := { b0 := l.l1, b1 := 0 } } := by
  ext
  all_goals
    simp [LineValue.toFp12Alt, Fp12Alt.w, Fp12Alt.ofFp2, Fp12Alt.Add, Fp12Alt.Mul,
      Fp4.model, Fp2Ops.ofRing]

/-- Claim C8: `MulLine(x, l)` equals `Fp12Alt.Mul(x, e)` where `e` is the Fp12Alt
element representing `l0 + l1*w^2 + l2*w^3`, and `e` has the coordinates
`((l0, l2), (0, 0), (l1, 0))` in the basis `1, w, w^2` over Fp4 with `t = w^3`. -/
theorem Fp12Alt.MulLine_eq_Mul_toFp12Alt {K : Type} [CommRing K] (xi : K)
    (x : Fp12Alt (Fp4 K)) (l : LineValue K) :
    Fp12Alt.MulLine Fp2Ops.ofRing (Fp4.model xi) (Fp4.MulSubfield xi) x l =
      Fp12Alt.Mul (Fp4.model xi) x (LineValue.toFp12Alt Fp2Ops.ofRing (Fp4.model xi) l) ∧
    LineValue.toFp12Alt Fp2Ops.ofRing (Fp4.model xi) l =
      { e0 := { b0 := l.l0, b1 := l.l2 }
        e1 := { b0 := 0, b1 := 0 }
        e2 := { b0 := l.l1, b1 := 0 } } ∧
    Fp12Alt.Mul (Fp4.model xi) (Fp12Alt.Mul (Fp4.model xi) (Fp12Alt.w (Fp4.model xi))
        (Fp12Alt.w (Fp4.model xi))) (Fp12Alt.w (Fp4.model xi)) =
      { e0 := (Fp4.model xi).MulT (Fp4.model xi).One
        e1 := { b0 := 0, b1 := 0 }
        e2 := { b0 := 0, b1 := 0 } } := by
  refine ⟨?_, LineValue.toFp12Alt_coords xi l, ?_⟩
  · rw [LineValue.toFp12Alt_coords, Fp12Alt.MulLine_eq_Mul_aux]
  · ext
    all_goals
      simp [Fp12Alt.w, Fp12Alt.Mul, Fp4.model]

/-- Claim C18: over a commutative ring Fp4 with `Sqr a = a*a` and `MulT`
multiplication by `t`, `Fp12Alt.Sqr(x)`, computed by the Chung-Hasan SQR3
formula, equals `Fp12Alt.Mul(x, x)`. -/
theorem Fp12Alt.Sqr_eq_Mul_same {G : Type} [CommRing G] (t : G) (x : Fp12Alt G) :
    Fp12Alt.Sqr (Fp4Ops.ofRing t) x = Fp12Alt.Mul (Fp4Ops.ofRing t) x x := by
  ext
  · simp only [Fp12Alt.Sqr, Fp12Alt.Mul, Fp4Ops.ofRing]
    ring
  · simp only [Fp12Alt.Sqr, Fp12Alt.Mul, Fp4Ops.ofRing]
    ring
  · simp only [Fp12Alt.Sqr, Fp12Alt.Mul, Fp4Ops.ofRing]
    ring

/-- Claim C19: the LineValue produced by `LineValue.SetOne` is neutral for
`MulLine`: `MulLine(x, one) = x` for every `x` in Fp12Alt (Fp4 = Fp2[s]/(s^2 - (u+1))
over a commutative ring Fp2). -/
theorem Fp12Alt.MulLine_SetOne {K : Type} [CommRing K] (xi : K) (x : Fp12Alt (Fp4 K)) :
    Fp12Alt.MulLine Fp2Ops.ofRing (Fp4.model xi) (Fp4.MulSubfield xi) x
      (LineValue.SetOne Fp2Ops.ofRing) = x := by
  ext
  all_goals
    simp only [Fp12Alt.MulLine, LineValue.SetOne, Fp4.MulSubfield, Fp4.model, Fp2Ops.ofRing]
    ring

/-! ## Aliasing of the destination -/

/-- Claim C17: with each method run as sequential writes to the components of
the destination in a store, `Fp12.Mul`, `Fp12.Sqr`, `Fp12.Inv`, `Fp12Alt.Mul`,
`Fp12Alt.Sqr` and `Fp12Alt.MulLine` leave at the destination `z` the value of the
method on the inputs as they were before the call, and change nothing else,
whether `z` is a distinct object or the same object as `x`, as `y`, or as both. -/
theorem Fp12_Fp12Alt_aliasing_harmless {F G K : Type} (ops6 : Fp6Ops F) (inv6 : F → F)
    (ops4 : Fp4Ops G) (ops2 : Fp2Ops K) (ops4K : Fp4Ops (Fp4 K))
    (mulSubfield : Fp4 K → K → Fp4 K) :
    (∀ (h : Store (Fp12 F)) (z x y : Nat),
      Fp12.MulPtr ops6 h z x y = Function.update h z (Fp12.Mul ops6 (h x) (h y))) ∧
    (∀ (h : Store (Fp12 F)) (z x : Nat),
      Fp12.SqrPtr ops6 h z x = Function.update h z (Fp12.Sqr ops6 (h x))) ∧
    (∀ (h : Store (Fp12 F)) (z x : Nat),
      Fp12.InvPtr ops6 inv6 h z x = Function.update h z (Fp12.Inv ops6 inv6 (h x))) ∧
    (∀ (h : Store (Fp12Alt G)) (z x y : Nat),
      Fp12Alt.MulPtr ops4 h z x y = Function.update h z (Fp12Alt.Mul ops4 (h x) (h y))) ∧
    (∀ (h : Store (Fp12Alt G)) (z x : Nat),
      Fp12Alt.SqrPtr ops4 h z x = Function.update h z (Fp12Alt.Sqr ops4 (h x))) ∧
    (∀ (h : Store (Fp12Alt (Fp4 K))) (z x : Nat) (y : LineValue K),
      Fp12Alt.MulLinePtr ops2 ops4K mulSubfield h z x y =
        Function.update h z (Fp12Alt.MulLine ops2 ops4K mulSubfield (h x) y)) := by
  refine ⟨?_, ?_, ?_, ?_, ?_, ?_⟩
  · intro h z x y
    funext a
    by_cases ha : a = z <;> by_cases hx : x = z <;>
      simp [Fp12.MulPtr, Fp12.Mul, Fp12.set0, Fp12.set1, Function.update, ha, hx]
  · intro h z x
    funext a
    by_cases ha : a = z <;> by_cases hx : x = z <;>
      simp [Fp12.SqrPtr, Fp12.Sqr, Fp12.set0, Fp12.set1, Function.update, ha, hx]
  · intro h z x
    funext a
    by_cases ha : a = z <;> by_cases hx : x = z <;>
      simp [Fp12.InvPtr, Fp12.Inv, Fp12.set0, Fp12.set1, Function.update, ha, hx]
  · intro h z x y
    funext a
    by_cases ha : a = z <;>
      simp [Fp12Alt.MulPtr, Fp12Alt.Mul, Fp12Alt.set0, Fp12Alt.set1, Fp12Alt.set2,
        Function.update, ha]
  · intro h z x
    funext a
    by_cases ha : a = z <;>
      simp [Fp12Alt.SqrPtr, Fp12Alt.Sqr, Fp12Alt.set0, Fp12Alt.set1, Fp12Alt.set2,
        Function.update, ha]
  · intro h z x y
    funext a
    by_cases ha : a = z <;>
      simp [Fp12Alt.MulLinePtr, Fp12Alt.MulLine, Fp12Alt.set0, Fp12Alt.set1, Fp12Alt.set2,
        Function.update, ha]


/-! ## The Frobenius of Fp12 -/

/-- First component of a product in Fp2. -/
theorem Fp2.mul_a0 {B : Type} [CommRing B] (x y : Fp2 B) :
    (x * y).a0 = x.a0 * y.a0 - x.a1 * y.a1 := rfl

/-- Second component of a product in Fp2. -/
theorem Fp2.mul_a1 {B : Type} [CommRing B] (x y : Fp2 B) :
    (x * y).a1 = (x.a0 + x.a1) * (y.a0 + y.a1) - x.a0 * y.a0 - x.a1 * y.a1 := rfl

/-- First component of a sum in Fp2. -/
theorem Fp2.add_a0 {B : Type} [CommRing B] (x y : Fp2 B) : (x + y).a0 = x.a0 + y.a0 := rfl

/-- Second component of a sum in Fp2. -/
theorem Fp2.add_a1 {B : Type} [CommRing B] (x y : Fp2 B) : (x + y).a1 = x.a1 + y.a1 := rfl

/-- Components of one in Fp2. -/
theorem Fp2.one_def {B : Type} [CommRing B] : (1 : Fp2 B) = { a0 := 1, a1 := 0 } := rfl

/-- Components of zero in Fp2. -/
theorem Fp2.zero_def {B : Type} [CommRing B] : (0 : Fp2 B) = { a0 := 0, a1 := 0 } := rfl

/-- The product on pairs of integers is the product of Fp2 over the integers
modulo `n`. -/
theorem Fp2.ofNatPair_mulNat (n : Nat) (hn : 0 < n) (a b : Nat × Nat) :
    Fp2.ofNatPair n (Fp2.mulNat n a b) = Fp2.ofNatPair n a * Fp2.ofNatPair n b := by
  have hle : (a.2 * b.2) % n ≤ n := le_of_lt (Nat.mod_lt _ hn)
  ext
  · rw [Fp2.mul_a0]
    simp only [Fp2.ofNatPair, Fp2.mulNat, ZMod.natCast_mod, Nat.cast_add, Nat.cast_sub hle,
      Nat.cast_mul, ZMod.natCast_self]
    ring
  · rw [Fp2.mul_a1]
    simp only [Fp2.ofNatPair, Fp2.mulNat, ZMod.natCast_mod, Nat.cast_add, Nat.cast_mul]
    ring

/-- Square-and-multiply on pairs of integers follows square-and-multiply in Fp2. -/
theorem Fp2.ofNatPair_powBits (n : Nat) (hn : 0 < n) (x : Nat × Nat) (bits : List Bool) :
    Fp2.ofNatPair n (powBits (Fp2.mulNat n) (1, 0) x bits) =
      powBits (fun a b => a * b) 1 (Fp2.ofNatPair n x) bits := by
  have h1 : Fp2.ofNatPair n (1, 0) = 1 := by
    ext <;> simp [Fp2.ofNatPair, Fp2.one_def]
  have key : ∀ acc : Nat × Nat,
      Fp2.ofNatPair n (bits.foldl
        (fun acc b => if b then Fp2.mulNat n (Fp2.mulNat n acc acc) x
          else Fp2.mulNat n acc acc) acc) =
      bits.foldl (fun acc b => if b then acc * acc * Fp2.ofNatPair n x else acc * acc)
        (Fp2.ofNatPair n acc) := by
    induction bits with
    | nil => intro acc; rfl
    | cons b bs ih =>
      intro acc
      simp only [List.foldl]
      rw [ih]
      cases b
      · simp [Fp2.ofNatPair_mulNat n hn]
      · simp [Fp2.ofNatPair_mulNat n hn]
  simp only [powBits]
  rw [key, h1]

/-- Square-and-multiply computes the power whose exponent has the given bits. -/
theorem powBits_eq_pow {M : Type} [Monoid M] (x : M) (bits : List Bool) :
    powBits (fun a b => a * b) 1 x bits = x ^ bitsValue bits := by
  have key : ∀ e : Nat,
      bits.foldl (fun acc b => if b then acc * acc * x else acc * acc) (x ^ e) =
        x ^ bits.foldl (fun acc b => 2 * acc + (if b then 1 else 0)) e := by
    induction bits with
    | nil => intro e; rfl
    | cons b bs ih =>
      intro e
      simp only [List.foldl]
      cases b
      · simp only [Bool.false_eq_true, if_false, add_zero]
        rw [← pow_add, ← two_mul, ih]
      · simp only [if_true]
        rw [← pow_add, ← pow_succ, ← two_mul, ih]
  have h := key 0
  simpa [powBits, bitsValue] using h

set_option maxRecDepth 100000 in
/-- The limbs of `frob12W1` in the code are the Montgomery form of the two
values given in the comment above it, and `R * R^-1 = 1` modulo `p`. -/
theorem frob12W1.val_eq :
    frob12W1.val = (frob12W1_0, frob12W1_1) ∧
    Fp.limbsValue frob12W1.limbs0 = frob12W1_0 * Fp.montR % fpPrime ∧
    Fp.limbsValue frob12W1.limbs1 = frob12W1_1 * Fp.montR % fpPrime ∧
    Fp.montR * Fp.montRInv % fpPrime = 1 := by
  decide

set_option maxRecDepth 100000 in
/-- The bits of `(p - 1) / 3`, and `p = 3 * ((p - 1) / 3) + 1`. -/
theorem fpPrime_third :
    bitsValue (natBits 400 ((fpPrime - 1) / 3) []) = (fpPrime - 1) / 3 ∧
    fpPrime = 3 * ((fpPrime - 1) / 3) + 1 ∧ 0 < fpPrime := by
  decide

set_option maxRecDepth 100000 in
/-- On pairs of integers modulo `p`: `(u+1)^((p-1)/3)` is the square of
`frob12W1`, and `(u+1) * frob12W1^6 = 1 - u`. -/
theorem frob12W1.nat_checks :
    powBits (Fp2.mulNat fpPrime) (1, 0) (1, 1) (natBits 400 ((fpPrime - 1) / 3) []) =
      Fp2.mulNat fpPrime frob12W1.val frob12W1.val ∧
    Fp2.mulNat fpPrime (1, 1)
      (Fp2.mulNat fpPrime (Fp2.mulNat fpPrime frob12W1.val frob12W1.val)
        (Fp2.mulNat fpPrime (Fp2.mulNat fpPrime frob12W1.val frob12W1.val)
          (Fp2.mulNat fpPrime frob12W1.val frob12W1.val))) = (1, fpPrime - 1) := by
  decide

/-- In Fp2 over the integers modulo `p`, the square of `frob12W1` is
`(u+1)^((p-1)/3)`. -/
theorem frob12W1.sq_eq_xi_pow :
    frob12W1 * frob12W1 = (Fp2.xi : Fp2 (ZMod fpPrime)) ^ ((fpPrime - 1) / 3) := by
  have hp : 0 < fpPrime := fpPrime_third.2.2
  have hxi : (Fp2.xi : Fp2 (ZMod fpPrime)) = Fp2.ofNatPair fpPrime (1, 1) := by
    ext <;> simp [Fp2.ofNatPair, Fp2.xi]
  rw [← fpPrime_third.1, ← powBits_eq_pow, hxi, ← Fp2.ofNatPair_powBits fpPrime hp,
    frob12W1.nat_checks.1, Fp2.ofNatPair_mulNat fpPrime hp]
  rfl

/-- In the model of Fp6, `v^(3k+1) = (u+1)^k * v`. -/
theorem Fp6.model_pow_v {K : Type} [CommRing K] (xi : K) (k : Nat) :
    Fp6Ops.pow (Fp6.model xi) { c0 := 0, c1 := 1, c2 := 0 } (3 * k + 1) =
      { c0 := 0, c1 := xi ^ k, c2 := 0 } := by
  induction k with
  | zero =>
    ext <;> simp [Fp6Ops.pow, Fp6.model]
  | succ k ih =>
    have h : 3 * (k + 1) + 1 = (3 * k + 1) + 1 + 1 + 1 := by ring
    rw [h]
    simp only [Fp6Ops.pow] at ih ⊢
    rw [ih]
    ext
    all_goals simp [Fp6.model, pow_succ]
    all_goals ring

/-- An additive map of the model of Fp6 commutes with subtraction. -/
theorem Fp6.model_map_Sub {K : Type} [CommRing K] (xi : K) (f : Fp6 K → Fp6 K)
    (hadd : ∀ a b, f ((Fp6.model xi).Add a b) = (Fp6.model xi).Add (f a) (f b))
    (a b : Fp6 K) :
    f ((Fp6.model xi).Sub a b) = (Fp6.model xi).Sub (f a) (f b) := by
  have e : (Fp6.model xi).Add ((Fp6.model xi).Sub a b) b = a := by
    ext <;> simp [Fp6.model]
  have h := hadd ((Fp6.model xi).Sub a b) b
  rw [e] at h
  rw [h]
  ext <;> simp [Fp6.model]

/-- The Frobenius of Fp12 is multiplicative as soon as `Fp6.Frob` is additive and
multiplicative and sends `v` to `c^2 * v`, `c` being the constant of `Frob`. -/
theorem Fp12.Frob_Mul_aux {K : Type} [CommRing K] (xi c : K) (frob6 : Fp6 K → Fp6 K)
    (hadd : ∀ a b, frob6 ((Fp6.model xi).Add a b) = (Fp6.model xi).Add (frob6 a) (frob6 b))
    (hmul : ∀ a b, frob6 ((Fp6.model xi).Mul a b) = (Fp6.model xi).Mul (frob6 a) (frob6 b))
    (hv : frob6 { c0 := 0, c1 := 1, c2 := 0 } = { c0 := 0, c1 := c * c, c2 := 0 })
    (x y : Fp12 (Fp6 K)) :
    Fp12.Frob Fp2Ops.ofRing (Fp6.model xi) frob6 c (Fp12.Mul (Fp6.model xi) x y) =
      Fp12.Mul (Fp6.model xi) (Fp12.Frob Fp2Ops.ofRing (Fp6.model xi) frob6 c x)
        (Fp12.Frob Fp2Ops.ofRing (Fp6.model xi) frob6 c y) := by
  have hsub := Fp6.model_map_Sub xi frob6 hadd
  ext : 1
  · simp only [Fp12.Frob, Fp12.Mul]
    rw [hadd, hmul, Fp6.model_MulBeta_eq_Mul_v, hmul, hmul, hv]
    ext <;> simp [Fp6.model, Fp2Ops.ofRing] <;> ring
  · simp only [Fp12.Frob, Fp12.Mul]
    rw [hsub, hsub, hmul, hadd, hadd, hmul, hmul]
    ext <;> simp [Fp6.model, Fp2Ops.ofRing] <;> ring

/-- Claim C14: the Fp12 Frobenius is multiplicative.  Over Fp2 = Fp[u]/(u^2+1)
with Fp the integers modulo `p`, Fp6 = Fp2[v]/(v^3 - (u+1)) and the constant
`frob12W1` of the code, `Frob` maps `(x0, x1)` to
`(Fp6.Frob(x0), Fp6.Frob(x1) * {frob12W1, 0, 0})`; when `Fp6.Frob` is additive,
multiplicative and agrees with the `p`-power map on `v`, as the `p`-power ring
endomorphism does, `Frob(Mul(x, y)) = Mul(Frob(x), Frob(y))` for all `x`, `y`. -/
theorem Fp12.Frob_Mul_multiplicative
    (frob6 : Fp6 (Fp2 (ZMod fpPrime)) → Fp6 (Fp2 (ZMod fpPrime)))
    (hadd : ∀ a b, frob6 ((Fp6.model Fp2.xi).Add a b) =
      (Fp6.model Fp2.xi).Add (frob6 a) (frob6 b))
    (hmul : ∀ a b, frob6 ((Fp6.model Fp2.xi).Mul a b) =
      (Fp6.model Fp2.xi).Mul (frob6 a) (frob6 b))
    (hpow : frob6 { c0 := 0, c1 := 1, c2 := 0 } =
      Fp6Ops.pow (Fp6.model Fp2.xi) { c0 := 0, c1 := 1, c2 := 0 } fpPrime)
    (x y : Fp12 (Fp6 (Fp2 (ZMod fpPrime)))) :
    (∀ z : Fp12 (Fp6 (Fp2 (ZMod fpPrime))),
      Fp12.Frob Fp2Ops.ofRing (Fp6.model Fp2.xi) frob6 frob12W1 z =
        { d0 := frob6 z.d0
          d1 := (Fp6.model Fp2.xi).Mul (frob6 z.d1) { c0 := frob12W1, c1 := 0, c2 := 0 } }) ∧
    Fp12.Frob Fp2Ops.ofRing (Fp6.model Fp2.xi) frob6 frob12W1
        (Fp12.Mul (Fp6.model Fp2.xi) x y) =
      Fp12.Mul (Fp6.model Fp2.xi)
        (Fp12.Frob Fp2Ops.ofRing (Fp6.model Fp2.xi) frob6 frob12W1 x)
        (Fp12.Frob Fp2Ops.ofRing (Fp6.model Fp2.xi) frob6 frob12W1 y) := by
  refine ⟨fun _ => rfl, ?_⟩
  apply Fp12.Frob_Mul_aux
  · exact hadd
  · exact hmul
  · have h3 := fpPrime_third.2.1
    have e : Fp6Ops.pow (Fp6.model (Fp2.xi : Fp2 (ZMod fpPrime)))
        { c0 := 0, c1 := 1, c2 := 0 } fpPrime =
        Fp6Ops.pow (Fp6.model Fp2.xi) { c0 := 0, c1 := 1, c2 := 0 }
          (3 * ((fpPrime - 1) / 3) + 1) :=
      congrArg (Fp6Ops.pow (Fp6.model Fp2.xi) { c0 := 0, c1 := 1, c2 := 0 }) h3
    rw [hpow, e, Fp6.model_pow_v, frob12W1.sq_eq_xi_pow]

/-- Conjugation of Fp2 is additive. -/
theorem Fp2.conj_add {B : Type} [CommRing B] (a b : Fp2 B) :
    Fp2.conj (a + b) = Fp2.conj a + Fp2.conj b := by
  ext
  · simp [Fp2.conj, Fp2.add_a0]
  · simp [Fp2.conj, Fp2.add_a1]
    ring

/-- Conjugation of Fp2 is multiplicative. -/
theorem Fp2.conj_mul {B : Type} [CommRing B] (a b : Fp2 B) :
    Fp2.conj (a * b) = Fp2.conj a * Fp2.conj b := by
  ext
  · simp [Fp2.conj, Fp2.mul_a0]
  · simp [Fp2.conj, Fp2.mul_a0, Fp2.mul_a1]
    ring

/-- The explicit Frobenius of Fp6 is additive. -/
theorem Fp6.frobWith_Add {B : Type} [CommRing B] (g : Fp2 B) (a b : Fp6 (Fp2 B)) :
    Fp6.frobWith g ((Fp6.model Fp2.xi).Add a b) =
      (Fp6.model Fp2.xi).Add (Fp6.frobWith g a) (Fp6.frobWith g b) := by
  ext : 1
  all_goals simp only [Fp6.frobWith, Fp6.model, Fp2.conj_add]
  all_goals ring

/-- The explicit Frobenius of Fp6 is multiplicative when `(u+1) * g^3 = 1 - u`. -/
theorem Fp6.frobWith_Mul {B : Type} [CommRing B] (g : Fp2 B)
    (hg : Fp2.xi * (g * g * g) = Fp2.conj Fp2.xi) (a b : Fp6 (Fp2 B)) :
    Fp6.frobWith g ((Fp6.model Fp2.xi).Mul a b) =
      (Fp6.model Fp2.xi).Mul (Fp6.frobWith g a) (Fp6.frobWith g b) := by
  ext : 1
  · simp only [Fp6.frobWith, Fp6.model, Fp2.conj_add, Fp2.conj_mul]
    linear_combination
      (-(Fp2.conj a.c1 * Fp2.conj b.c2 + Fp2.conj a.c2 * Fp2.conj b.c1)) * hg
  · simp only [Fp6.frobWith, Fp6.model, Fp2.conj_add, Fp2.conj_mul]
    linear_combination (-(g * Fp2.conj a.c2 * Fp2.conj b.c2)) * hg
  · simp only [Fp6.frobWith, Fp6.model, Fp2.conj_add, Fp2.conj_mul]
    ring

/-- In Fp2 over the integers modulo `p`, `(u+1) * frob12W1^6 = 1 - u`. -/
theorem frob12W1.xi_mul_pow_six :
    (Fp2.xi : Fp2 (ZMod fpPrime)) *
        (frob12W1 * frob12W1 * (frob12W1 * frob12W1) * (frob12W1 * frob12W1)) =
      Fp2.conj Fp2.xi := by
  have hp : 0 < fpPrime := fpPrime_third.2.2
  have hxi : (Fp2.xi : Fp2 (ZMod fpPrime)) = Fp2.ofNatPair fpPrime (1, 1) := by
    ext <;> simp [Fp2.ofNatPair, Fp2.xi]
  have hc : Fp2.conj (Fp2.xi : Fp2 (ZMod fpPrime)) = Fp2.ofNatPair fpPrime (1, fpPrime - 1) := by
    ext
    · simp [Fp2.ofNatPair, Fp2.xi, Fp2.conj]
    · simp [Fp2.ofNatPair, Fp2.xi, Fp2.conj, Nat.cast_sub (Nat.succ_le_of_lt hp)]
  have h := congrArg (Fp2.ofNatPair fpPrime) frob12W1.nat_checks.2
  simp only [Fp2.ofNatPair_mulNat fpPrime hp] at h
  rw [hc, ← h, hxi]
  simp only [frob12W1]
  ring

/-- Witness for C14: the explicit Frobenius of Fp6 built from `frob12W1^2` is
additive, multiplicative and agrees with the `p`-power map on `v`, and the
Frobenius of Fp12 commutes with the product of `(u+1) + v` and `v^2 + w`. -/
theorem Fp12.Frob_Mul_multiplicative_witness :
    (∀ a b, Fp6.frobWith (frob12W1 * frob12W1) ((Fp6.model Fp2.xi).Add a b) =
      (Fp6.model Fp2.xi).Add (Fp6.frobWith (frob12W1 * frob12W1) a)
        (Fp6.frobWith (frob12W1 * frob12W1) b)) ∧
    (∀ a b, Fp6.frobWith (frob12W1 * frob12W1) ((Fp6.model Fp2.xi).Mul a b) =
      (Fp6.model Fp2.xi).Mul (Fp6.frobWith (frob12W1 * frob12W1) a)
        (Fp6.frobWith (frob12W1 * frob12W1) b)) ∧
    Fp6.frobWith (frob12W1 * frob12W1) { c0 := 0, c1 := 1, c2 := 0 } =
      Fp6Ops.pow (Fp6.model Fp2.xi) { c0 := 0, c1 := 1, c2 := 0 } fpPrime ∧
    Fp12.Frob Fp2Ops.ofRing (Fp6.model Fp2.xi) (Fp6.frobWith (frob12W1 * frob12W1)) frob12W1
        (Fp12.Mul (Fp6.model Fp2.xi)
          { d0 := { c0 := Fp2.xi, c1 := 1, c2 := 0 }, d1 := { c0 := 0, c1 := 0, c2 := 0 } }
          { d0 := { c0 := 0, c1 := 0, c2 := 1 }, d1 := { c0 := 1, c1 := 0, c2 := 0 } }) =
      Fp12.Mul (Fp6.model Fp2.xi)
        (Fp12.Frob Fp2Ops.ofRing (Fp6.model Fp2.xi) (Fp6.frobWith (frob12W1 * frob12W1))
          frob12W1
          { d0 := { c0 := Fp2.xi, c1 := 1, c2 := 0 }, d1 := { c0 := 0, c1 := 0, c2 := 0 } })
        (Fp12.Frob Fp2Ops.ofRing (Fp6.model Fp2.xi) (Fp6.frobWith (frob12W1 * frob12W1))
          frob12W1
          { d0 := { c0 := 0, c1 := 0, c2 := 1 }, d1 := { c0 := 1, c1 := 0, c2 := 0 } }) :=
  have hadd := Fp6.frobWith_Add (frob12W1 * frob12W1)
  have hmul := Fp6.frobWith_Mul (frob12W1 * frob12W1) frob12W1.xi_mul_pow_six
  have hpow : Fp6.frobWith (frob12W1 * frob12W1) { c0 := 0, c1 := 1, c2 := 0 } =
      Fp6Ops.pow (Fp6.model Fp2.xi) { c0 := 0, c1 := 1, c2 := 0 } fpPrime := by
    have e : Fp6Ops.pow (Fp6.model (Fp2.xi : Fp2 (ZMod fpPrime)))
        { c0 := 0, c1 := 1, c2 := 0 } fpPrime =
        Fp6Ops.pow (Fp6.model Fp2.xi) { c0 := 0, c1 := 1, c2 := 0 }
          (3 * ((fpPrime - 1) / 3) + 1) :=
      congrArg (Fp6Ops.pow (Fp6.model Fp2.xi) { c0 := 0, c1 := 1, c2 := 0 })
        fpPrime_third.2.1
    rw [e, Fp6.model_pow_v, ← frob12W1.sq_eq_xi_pow]
    ext : 1
    · simp [Fp6.frobWith, Fp2.conj, Fp2.zero_def]
    · simp only [Fp6.frobWith]
      have h1 : Fp2.conj (1 : Fp2 (ZMod fpPrime)) = 1 := by
        ext <;> simp [Fp2.conj, Fp2.one_def]
      rw [h1, one_mul]
    · simp only [Fp6.frobWith]
      have h0 : Fp2.conj (0 : Fp2 (ZMod fpPrime)) = 0 := by
        ext <;> simp [Fp2.conj, Fp2.zero_def]
      rw [h0, zero_mul]
  ⟨hadd, hmul, hpow,
    (Fp12.Frob_Mul_multiplicative (Fp6.frobWith (frob12W1 * frob12W1)) hadd hmul hpow
      { d0 := { c0 := Fp2.xi, c1 := 1, c2 := 0 }, d1 := { c0 := 0, c1 := 0, c2 := 0 } }
      { d0 := { c0 := 0, c1 := 0, c2 := 1 }, d1 := { c0 := 1, c1 := 0, c2 := 0 } }).2⟩
end ff
